import Mathlib

/-!
Verification of the BARS EuroScope plugin core against its specification.

The Rust sources are shallowly embedded:
* `Proto` models `shared/protocol/src/lib.rs` (wire `Patch` and shared
  `Aerodrome` snapshot; `HashMap<String, V>` is modelled as an association
  list `SMap V` whose `insert` overwrites and whose well-formed values have
  no duplicate keys).
* `Cfg` models the data model of `config/src/lib.rs` (`f32` fields are
  carried as their 32-bit patterns, a `Nat`).
* `Clt` models the client-side `Aerodrome`/`Client` of `client/src/client.rs`.
* `Srv` models the JSON deep merge of `tool/server/src/main.rs`.
* `Mgr` models the tracker reference count of `client/src/server.rs`.
-/

namespace Bars

/-- Association-list stand-in for `HashMap<String, V>`: the extensional
content is given by `smapLookup`; maps built by the program have
`SMapNodup` keys. -/
abbrev SMap (V : Type) : Type := List (String × V)

/-- Lookup in an `SMap` (first match; unique under `SMapNodup`). -/
def smapLookup {V : Type} : SMap V → String → Option V
  | [], _ => none
  | e :: m, k => if e.1 = k then some e.2 else smapLookup m k

/-- `HashMap::insert`: bind `k` to `v`, overwriting any previous binding. -/
def smapInsert {V : Type} (m : SMap V) (k : String) (v : V) : SMap V :=
  (k, v) :: m.filter (fun e => e.1 ≠ k)

/-- `HashMap::extend`: insert every entry of `p` into `m` (later wins). -/
def smapExtend {V : Type} (m p : SMap V) : SMap V :=
  p.foldl (fun acc e => smapInsert acc e.1 e.2) m

/-- `HashMap::is_empty`. -/
def smapIsEmpty {V : Type} (m : SMap V) : Bool :=
  m.isEmpty

/-- A hash map never holds two bindings of one key. -/
abbrev SMapNodup {V : Type} (m : SMap V) : Prop :=
  (m.map Prod.fst).Nodup

namespace Proto

/-- Wire `BlockState` of the shared protocol (route endpoints by id). -/
inductive BlockState : Type where
  | clear : BlockState
  | relax : BlockState
  | route : String × String → BlockState
deriving DecidableEq, Inhabited

/-- Wire `Patch`: optional profile id plus node/block assignments. -/
structure Patch : Type where
  profile : Option String
  nodes : SMap Bool
  blocks : SMap BlockState
deriving DecidableEq, Inhabited

/-- `Patch::default()`. -/
def Patch.defaultPatch : Patch :=
  { profile := none, nodes := [], blocks := [] }

/-- `Patch::apply_patch` — the merge of two patches: `patch.profile`
overrides when present, node and block maps extend key-wise. -/
def Patch.apply_patch (self patch : Patch) : Patch :=
  { profile := match patch.profile with
      | some p => some p
      | none => self.profile
    nodes := smapExtend self.nodes patch.nodes
    blocks := smapExtend self.blocks patch.blocks }

/-- `Patch::is_empty`. -/
def Patch.is_empty (p : Patch) : Bool :=
  p.profile.isNone && smapIsEmpty p.nodes && smapIsEmpty p.blocks

/-- Shared-state `Aerodrome` snapshot of the protocol crate. -/
structure Aerodrome : Type where
  profile : String
  nodes : SMap Bool
  blocks : SMap BlockState
  patch : Option Patch

/-- `Aerodrome::apply_patch`: optional profile override, key-wise map
extension. -/
def Aerodrome.apply_patch (self : Aerodrome) (patch : Patch) : Aerodrome :=
  { self with
    profile := match patch.profile with
      | some p => p
      | none => self.profile
    nodes := smapExtend self.nodes patch.nodes
    blocks := smapExtend self.blocks patch.blocks }

end Proto

namespace Cfg

/-- `config::Point` (`f32` coordinates carried as 32-bit patterns). -/
structure Point : Type where
  x : Nat
  y : Nat
deriving DecidableEq, Inhabited

/-- `config::Geo`. -/
structure Geo : Type where
  lat : Nat
  lon : Nat
deriving DecidableEq, Inhabited

/-- `config::GeoPoint`. -/
structure GeoPoint : Type where
  geo : Geo
  offset : Point
deriving DecidableEq, Inhabited

/-- `config::Color`. -/
structure Color : Type where
  r : Nat
  g : Nat
  b : Nat
  a : Nat
deriving DecidableEq, Inhabited

/-- `config::FillStyle`. -/
inductive FillStyle : Type where
  | noFill : FillStyle
  | solid : FillStyle
  | hatchHorizontal : FillStyle
  | hatchVertical : FillStyle
  | hatchForwardDiagonal : FillStyle
  | hatchBackwardDiagonal : FillStyle
  | hatchCross : FillStyle
  | hatchDiagonalCross : FillStyle
deriving DecidableEq, Inhabited

/-- `config::Style`. -/
structure Style : Type where
  stroke_width : Nat
  stroke_color : Color
  fill_style : FillStyle
  fill_color : Color
deriving DecidableEq, Inhabited

/-- `config::Path<T>`. -/
structure CPath (T : Type) : Type where
  points : List T
  style : Nat
deriving DecidableEq, Inhabited

/-- `config::Target<T>`. -/
structure Target (T : Type) : Type where
  points : List T
deriving DecidableEq, Inhabited

/-- `config::NodeDisplay<T>`. -/
structure NodeDisplay (T : Type) : Type where
  off : List (CPath T)
  «on» : List (CPath T)
  selected : List (CPath T)
  target : Target T
deriving DecidableEq, Inhabited

/-- `config::EdgeDisplay<T>`. -/
structure EdgeDisplay (T : Type) : Type where
  off : List (CPath T)
  «on» : List (CPath T)
deriving DecidableEq, Inhabited

/-- `config::BlockDisplay<T>`. -/
structure BlockDisplay (T : Type) : Type where
  target : Target T
deriving DecidableEq, Inhabited

/-- `config::ElementCondition`. -/
inductive ElementCondition : Type where
  | fixed : Bool → ElementCondition
  | node : Nat → ElementCondition
  | edge : Nat → ElementCondition
deriving DecidableEq, Inhabited

/-- `config::Element`. -/
structure Element : Type where
  id : String
  condition : ElementCondition
deriving DecidableEq, Inhabited

/-- `config::Node`. -/
structure Node : Type where
  id : String
  scratchpad : Option String
  parent : Option Nat
  display : NodeDisplay GeoPoint
deriving DecidableEq, Inhabited

/-- `config::Edge`. -/
structure Edge : Type where
  display : EdgeDisplay GeoPoint
deriving DecidableEq, Inhabited

/-- `config::Block`. -/
structure Block : Type where
  id : String
  nodes : List Nat
  edges : List Nat
  non_routes : List (Nat × Nat)
  stands : List String
  display : BlockDisplay GeoPoint
deriving DecidableEq, Inhabited

/-- `config::ResetCondition`. -/
inductive ResetCondition : Type where
  | noReset : ResetCondition
  | timeSecs : Nat → ResetCondition
deriving DecidableEq, Inhabited

/-- `config::NodeCondition` (field names as matched by the client). -/
inductive NodeCondition : Type where
  | fixed : Bool → NodeCondition
  | direct : ResetCondition → NodeCondition
  | router : NodeCondition
deriving DecidableEq, Inhabited

/-- `config::EdgeCondition`. -/
inductive EdgeCondition : Type where
  | fixed : Bool → EdgeCondition
  | direct : Nat → EdgeCondition
  | router : Nat → List (Nat × Nat) → EdgeCondition
deriving DecidableEq, Inhabited

/-- `config::BlockCondition` (its single field is the reset policy). -/
structure BlockCondition : Type where
  reset : ResetCondition
deriving DecidableEq, Inhabited

/-- `config::BlockState` (route endpoints by node index). -/
inductive BlockState : Type where
  | clear : BlockState
  | relax : BlockState
  | route : Nat × Nat → BlockState
deriving DecidableEq, Inhabited

/-- `config::Preset`. -/
structure Preset : Type where
  name : String
  nodes : List (Nat × Bool)
  blocks : List (Nat × BlockState)
deriving DecidableEq, Inhabited

/-- `config::Profile`. -/
structure Profile : Type where
  id : String
  name : String
  nodes : List NodeCondition
  edges : List EdgeCondition
  blocks : List BlockCondition
  presets : List Preset
deriving DecidableEq, Inhabited

/-- `config::Map`. -/
structure CMap : Type where
  background : Color
  base : List (CPath Point)
  nodes : List (NodeDisplay Point)
  edges : List (EdgeDisplay Point)
  blocks : List (BlockDisplay Point)
deriving DecidableEq, Inhabited

/-- `config::Box`. -/
structure CBox : Type where
  min : Point
  max : Point
deriving DecidableEq, Inhabited

/-- `config::View`. -/
structure View : Type where
  name : String
  map : Nat
  bounds : CBox
deriving DecidableEq, Inhabited

/-- `config::Aerodrome`. -/
structure Aerodrome : Type where
  icao : String
  elements : List Element
  nodes : List Node
  edges : List Edge
  blocks : List Block
  profiles : List Profile
  maps : List CMap
  views : List View
  styles : List Style
deriving DecidableEq, Inhabited

/-- `config::Config`. -/
structure Config : Type where
  name : Option String
  version : Option String
  aerodromes : List Aerodrome
deriving DecidableEq, Inhabited

end Cfg

namespace Clt

/-- `ActivityState` of the client crate. -/
inductive ActivityState : Type where
  | none : ActivityState
  | observing : ActivityState
  | controlling : ActivityState
deriving DecidableEq, Inhabited

/-- `client::State<T>`: confirmed value plus optional pending overlay. -/
structure ClState (T : Type) : Type where
  current : T
  pending : Option T
deriving DecidableEq, Inhabited

/-- `State::state`: the effective value, pending if present else current. -/
def ClState.state {T : Type} (s : ClState T) : T :=
  s.pending.getD s.current

/-- Lookup in a `HashMap<usize, Vec<usize>>` modelled as an association
list. -/
def nmapLookup : List (Nat × List Nat) → Nat → Option (List Nat)
  | [], _ => none
  | e :: m, k => if e.1 = k then some e.2 else nmapLookup m k

/-- `children.entry(parent).or_default().push(i)`. -/
def nmapPush (m : List (Nat × List Nat)) (k v : Nat) : List (Nat × List Nat) :=
  match nmapLookup m k with
  | some l => m.map (fun e => if e.1 = k then (k, l ++ [v]) else e)
  | none => m ++ [(k, [v])]

/-- Write component `j` of a two-slot array `[usize; 2]` (out-of-range
writes are dropped; the source would panic there). -/
def pairSet (p : Nat × Nat) (j v : Nat) : Nat × Nat :=
  if j = 0 then (v, p.2) else if j = 1 then (p.1, v) else p

/-- The id → index map built in `Aerodrome::new` over `config.nodes`. -/
def mkNodeIds (ns : List Cfg.Node) : SMap Nat :=
  ns.enum.foldl (fun m e => smapInsert m e.2.id e.1) []

/-- The id → index map built in `Aerodrome::new` over `config.blocks`. -/
def mkBlockIds (bs : List Cfg.Block) : SMap Nat :=
  bs.enum.foldl (fun m e => smapInsert m e.2.id e.1) []

/-- The parent → children map built in `Aerodrome::new`. -/
def mkChildren (ns : List Cfg.Node) : List (Nat × List Nat) :=
  ns.enum.foldl
    (fun m e =>
      match e.2.parent with
      | some parent => nmapPush m parent e.1
      | none => m)
    []

/-- The `node_blocks` table built in `Aerodrome::new`: per node, the up to
two block indices bordering it (the `borders` counter as in the source). -/
def mkNodeBlocks (bs : List Cfg.Block) (n : Nat) : List (Nat × Nat) :=
  (bs.enum.foldl
    (fun (st : List Nat × List (Nat × Nat)) e =>
      e.2.nodes.foldl
        (fun (st : List Nat × List (Nat × Nat)) node =>
          let b := st.1.getD node 0
          let nb := st.2.set node (pairSet (pairSet (st.2.getD node (0, 0)) 1 e.1) b e.1)
          (st.1.set node (b + 1), nb))
        st)
    (List.replicate n 0, List.replicate n (0, 0))).2

/-- Client-side `Aerodrome` (the `node_conns` table, used only by
`set_route` which no claim touches, is not carried). `Instant` deadlines
are modelled as `Nat` time stamps. -/
structure Aerodrome : Type where
  config : Cfg.Aerodrome
  state : ActivityState
  profile : Nat
  node_ids : SMap Nat
  block_ids : SMap Nat
  node_blocks : List (Nat × Nat)
  children : List (Nat × List Nat)
  nodes : List (ClState Bool)
  blocks : List (ClState Cfg.BlockState)
  aircraft : List String
  pending_patch : Proto.Patch
  pending_scenery : SMap Bool
  node_timers : List (Nat × Nat)
  block_timers : List (Nat × Nat)
deriving DecidableEq

/-- The profile currently selected (`config.profiles[self.profile]`). -/
def Aerodrome.activeProfile (a : Aerodrome) : Cfg.Profile :=
  a.config.profiles.getD a.profile default

/-- `Aerodrome::bs_ipc_to_conf`. -/
def Aerodrome.bs_ipc_to_conf (a : Aerodrome) (state : Proto.BlockState) :
    Option Cfg.BlockState :=
  match state with
  | .clear => some .clear
  | .relax => some .relax
  | .route (x, y) =>
      match smapLookup a.node_ids x, smapLookup a.node_ids y with
      | some i, some j => some (.route (i, j))
      | _, _ => none

/-- `Aerodrome::bs_conf_to_ipc`. -/
def Aerodrome.bs_conf_to_ipc (a : Aerodrome) (state : Cfg.BlockState) :
    Proto.BlockState :=
  match state with
  | .clear => .clear
  | .relax => .relax
  | .route (x, y) =>
      .route ((a.config.nodes.getD x default).id, (a.config.nodes.getD y default).id)

/-- One node entry of an inbound patch, as handled by
`Aerodrome::apply_patch`: set `current`; clear `pending` when it equals
the inbound value, otherwise drop that node's timers. -/
def Aerodrome.patchNodeStep (a : Aerodrome) (e : String × Bool) : Aerodrome :=
  match smapLookup a.node_ids e.1 with
  | some i =>
      let old := a.nodes.getD i default
      if old.pending = some e.2 then
        { a with nodes := a.nodes.set i { current := e.2, pending := none } }
      else
        { a with
          nodes := a.nodes.set i { current := e.2, pending := old.pending }
          node_timers := a.node_timers.filter (fun t => t.1 ≠ i) }
  | none => a

/-- One block entry of an inbound patch, as handled by
`Aerodrome::apply_patch` (untranslatable route endpoints are skipped). -/
def Aerodrome.patchBlockStep (a : Aerodrome) (e : String × Proto.BlockState) :
    Aerodrome :=
  match smapLookup a.block_ids e.1 with
  | some i =>
      match a.bs_ipc_to_conf e.2 with
      | some st =>
          let old := a.blocks.getD i default
          if old.pending = some st then
            { a with blocks := a.blocks.set i { current := st, pending := none } }
          else
            { a with
              blocks := a.blocks.set i { current := st, pending := old.pending }
              block_timers := a.block_timers.filter (fun t => t.1 ≠ i) }
      | none => a
  | none => a

/-- The optional profile switch of the client `Aerodrome::apply_patch`
(a known requested profile id selects it and clears all timers). -/
def Aerodrome.profileStep (a : Aerodrome) (patch : Proto.Patch) : Aerodrome :=
  match patch.profile with
  | some prof =>
      match a.config.profiles.findIdx? (fun p => p.id = prof) with
      | some i => { a with profile := i, node_timers := [], block_timers := [] }
      | none => a
  | none => a

/-- `Aerodrome::apply_patch` (client side): optional profile switch (which
clears all timers), then the node entries, then the block entries. -/
def Aerodrome.apply_patch (a : Aerodrome) (patch : Proto.Patch) : Aerodrome :=
  patch.blocks.foldl Aerodrome.patchBlockStep
    (patch.nodes.foldl Aerodrome.patchNodeStep (a.profileStep patch))

/-- `Aerodrome::set_default_state`. -/
def Aerodrome.set_default_state (a : Aerodrome) (patch : Bool) : Aerodrome :=
  let prof := a.activeProfile
  let nodes : List (ClState Bool) :=
    (List.range a.config.nodes.length).map (fun i =>
      { current :=
          match prof.nodes.getD i default with
          | .fixed st => st
          | .direct reset => decide (reset ≠ Cfg.ResetCondition.noReset)
          | _ => true
        pending := none })
  let blocks : List (ClState Cfg.BlockState) :=
    List.replicate a.config.blocks.length { current := .clear, pending := none }
  let a := { a with nodes := nodes, blocks := blocks }
  let a :=
    if patch then
      { a with
        pending_patch :=
          { a.pending_patch with
            nodes := smapExtend []
              (a.nodes.enum.map (fun e =>
                ((a.config.nodes.getD e.1 default).id, e.2.state)))
            blocks := smapExtend []
              (a.blocks.enum.map (fun e =>
                ((a.config.blocks.getD e.1 default).id, a.bs_conf_to_ipc e.2.state))) } }
    else a
  { a with node_timers := [], block_timers := [] }

/-- `Aerodrome::set_node_state`: write the pending overlay and the pending
patch entry, cancel this node's timers, and schedule a deferred re-enable
when turning a timed Direct node off. -/
def Aerodrome.set_node_state (a : Aerodrome) (now node : Nat) (state : Bool) :
    Aerodrome :=
  let a :=
    { a with
      nodes := a.nodes.set node { a.nodes.getD node default with pending := some state }
      pending_patch :=
        { a.pending_patch with
          nodes := smapInsert a.pending_patch.nodes
            (a.config.nodes.getD node default).id state }
      node_timers := a.node_timers.filter (fun t => t.1 ≠ node) }
  if state = false then
    match a.activeProfile.nodes.getD node default with
    | .direct (.timeSecs secs) =>
        { a with node_timers := a.node_timers ++ [(node, now + secs)] }
    | _ => a
  else a

/-- `Aerodrome::set_block_state`. -/
def Aerodrome.set_block_state (a : Aerodrome) (now block : Nat)
    (state : Cfg.BlockState) : Aerodrome :=
  let a :=
    { a with
      blocks := a.blocks.set block { a.blocks.getD block default with pending := some state }
      pending_patch :=
        { a.pending_patch with
          blocks := smapInsert a.pending_patch.blocks
            (a.config.blocks.getD block default).id (a.bs_conf_to_ipc state) }
      block_timers := a.block_timers.filter (fun t => t.1 ≠ block) }
  if state ≠ Cfg.BlockState.clear then
    match a.activeProfile.blocks.getD block default with
    | ⟨.timeSecs secs⟩ =>
        { a with block_timers := a.block_timers ++ [(block, now + secs)] }
    | _ => a
  else a

/-- `Aerodrome::set_profile`. -/
def Aerodrome.set_profile (a : Aerodrome) (i : Nat) : Aerodrome :=
  if i ≥ a.config.profiles.length then a
  else
    let a :=
      { a with
        profile := i
        pending_patch :=
          { a.pending_patch with
            profile := some (a.config.profiles.getD i default).id } }
    a.set_default_state true

/-- The non-sentinel node arm of `Aerodrome::apply_preset`. -/
def Aerodrome.presetNodeOne (acc : Aerodrome × SMap Bool) (node : Nat)
    (st : Bool) : Aerodrome × SMap Bool :=
  let a := acc.1
  ( { a with nodes := a.nodes.set node { a.nodes.getD node default with pending := some st } },
    smapInsert acc.2 (a.config.nodes.getD node default).id st )

/-- One preset node entry (`u32::MAX` low bits select the sentinel arm
covering every node not previously set). -/
def Aerodrome.presetNodeStep (acc : Aerodrome × SMap Bool) (e : Nat × Bool) :
    Aerodrome × SMap Bool :=
  if e.1 % 4294967296 < 4294967295 then
    Aerodrome.presetNodeOne acc e.1 e.2
  else
    (List.range acc.1.nodes.length).foldl
      (fun acc2 node =>
        if smapLookup acc2.2 (acc2.1.config.nodes.getD node default).id = none then
          Aerodrome.presetNodeOne acc2 node e.2
        else acc2)
      acc

/-- The non-sentinel block arm of `Aerodrome::apply_preset`. -/
def Aerodrome.presetBlockOne (acc : Aerodrome × SMap Proto.BlockState)
    (block : Nat) (st : Cfg.BlockState) : Aerodrome × SMap Proto.BlockState :=
  let a := acc.1
  ( { a with blocks := a.blocks.set block { a.blocks.getD block default with pending := some st } },
    smapInsert acc.2 (a.config.blocks.getD block default).id (a.bs_conf_to_ipc st) )

/-- One preset block entry (with the sentinel arm). -/
def Aerodrome.presetBlockStep (acc : Aerodrome × SMap Proto.BlockState)
    (e : Nat × Cfg.BlockState) : Aerodrome × SMap Proto.BlockState :=
  if e.1 % 4294967296 < 4294967295 then
    Aerodrome.presetBlockOne acc e.1 e.2
  else
    (List.range acc.1.blocks.length).foldl
      (fun acc2 block =>
        if smapLookup acc2.2 (acc2.1.config.blocks.getD block default).id = none then
          Aerodrome.presetBlockOne acc2 block e.2
        else acc2)
      acc

/-- `Aerodrome::apply_preset`. -/
def Aerodrome.apply_preset (a : Aerodrome) (i : Nat) : Aerodrome :=
  if i ≥ a.activeProfile.presets.length then a
  else
    let preset := a.activeProfile.presets.getD i default
    let accN := preset.nodes.foldl Aerodrome.presetNodeStep (a, [])
    let accB := preset.blocks.foldl Aerodrome.presetBlockStep (accN.1, [])
    { accB.1 with
      pending_patch :=
        { accB.1.pending_patch with nodes := accN.2, blocks := accB.2 }
      node_timers := []
      block_timers := [] }

/-- `Aerodrome::node_state`. -/
def Aerodrome.node_state (a : Aerodrome) (node : Nat) : Bool :=
  match a.activeProfile.nodes.getD node default with
  | .fixed st => st
  | .direct _ => (a.nodes.getD node default).state
  | .router =>
      let bp := a.node_blocks.getD node (0, 0)
      [bp.1, bp.2].any (fun b =>
        match (a.blocks.getD b default).state with
        | .clear => true
        | .relax => false
        | .route (x, y) => decide (x ≠ node) && decide (y ≠ node))

/-- `Aerodrome::route_candidates`. -/
def Aerodrome.route_candidates (a : Aerodrome) (block : Nat) :
    List (Nat × Nat) :=
  match (a.blocks.getD block default).state with
  | .route (ap, bp) =>
      let ac := (nmapLookup a.children ap).getD [ap]
      let bc := (nmapLookup a.children bp).getD [bp]
      let nr := (a.config.blocks.getD block default).non_routes
      ac.flatMap (fun x =>
        (bc.filter (fun y => decide (¬ ((x, y) ∈ nr ∨ (y, x) ∈ nr)))).map
          (fun y => (x, y)))
  | _ => []

/-- A safe fuel bound for the `set_block` cascade loop. -/
def Aerodrome.cascadeFuel (a : Aerodrome) : Nat :=
  (a.config.blocks.length + 2) *
    (2 * a.config.blocks.foldl (fun n b => n + b.nodes.length) 0 + 2)

/-- The `while let Some(block) = blocks.pop()` cascade loop of
`Aerodrome::set_block` (a `Vec` pops from its end). -/
def Aerodrome.cascadeGo (now : Nat) (state : Cfg.BlockState) :
    Nat → Aerodrome → List Nat → List Nat → Aerodrome
  | 0, a, _, _ => a
  | fuel + 1, a, stack, visited =>
      match stack.getLast? with
      | none => a
      | some block =>
          let rest := stack.dropLast
          if block ∈ visited then
            Aerodrome.cascadeGo now state fuel a rest visited
          else
            let a := a.set_block_state now block state
            let push :=
              ((a.config.blocks.getD block default).nodes.filter (fun node =>
                  a.activeProfile.nodes.getD node default =
                    Cfg.NodeCondition.fixed false)).flatMap
                (fun node =>
                  let p := a.node_blocks.getD node (0, 0)
                  [p.1, p.2])
            Aerodrome.cascadeGo now state fuel a (rest ++ push) (block :: visited)

/-- `Aerodrome::set_block`: guarded entry into the cascade loop. -/
def Aerodrome.set_block (a : Aerodrome) (now block : Nat)
    (state : Cfg.BlockState) : Aerodrome :=
  if block ≥ a.blocks.length then a
  else Aerodrome.cascadeGo now state (a.cascadeFuel + 1) a [block] []

/-- `Aerodrome::set_node`. -/
def Aerodrome.set_node (a : Aerodrome) (now node : Nat) (state : Bool) :
    Aerodrome :=
  if node ≥ a.nodes.length then a
  else
    match a.activeProfile.nodes.getD node default with
    | .direct _ => a.set_node_state now node state
    | _ => a

/-- The node-timer loop of `Aerodrome::tick`. -/
def Aerodrome.tickNodeTimers (now : Nat) : Nat → Aerodrome → Aerodrome
  | 0, a => a
  | fuel + 1, a =>
      match a.node_timers with
      | (node, time) :: rest =>
          if time < now then
            Aerodrome.tickNodeTimers now fuel
              (({ a with node_timers := rest }).set_node now node true)
          else a
      | [] => a

/-- The block-timer loop of `Aerodrome::tick`. -/
def Aerodrome.tickBlockTimers (now : Nat) : Nat → Aerodrome → Aerodrome
  | 0, a => a
  | fuel + 1, a =>
      match a.block_timers with
      | (block, time) :: rest =>
          if time < now then
            Aerodrome.tickBlockTimers now fuel
              (({ a with block_timers := rest }).set_block now block .clear)
          else a
      | [] => a

/-- `Aerodrome::tick`: fire all due timers (a fired timer never schedules
another one due in the same tick, so the list length bounds the loops). -/
def Aerodrome.tick (a : Aerodrome) (now : Nat) : Aerodrome :=
  let a1 := Aerodrome.tickNodeTimers now a.node_timers.length a
  Aerodrome.tickBlockTimers now a1.block_timers.length a1

/-- `Aerodrome::new` (the render-only `node_conns` table is not carried). -/
def Aerodrome.new (config : Cfg.Aerodrome) : Aerodrome :=
  let base : Aerodrome :=
    { config := config
      state := .none
      profile := 0
      node_ids := mkNodeIds config.nodes
      block_ids := mkBlockIds config.blocks
      node_blocks := mkNodeBlocks config.blocks config.nodes.length
      children := mkChildren config.nodes
      nodes := []
      blocks := []
      aircraft := []
      pending_patch := Proto.Patch.defaultPatch
      pending_scenery := []
      node_timers := []
      block_timers := [] }
  base.set_default_state false

/-- `ipc::Upstream` envelopes. -/
inductive Upstream : Type where
  | init : Upstream
  | track : String → Bool → Upstream
  | control : String → Bool → Upstream
  | patch : String → Proto.Patch → Upstream
  | scenery : String → SMap Bool → Upstream
deriving DecidableEq

/-- `ipc::Downstream` envelopes. -/
inductive Downstream : Type where
  | config : Cfg.Aerodrome → Downstream
  | control : String → Bool → Downstream
  | patch : String → Proto.Patch → Downstream
  | aircraft : String → List String → Downstream
  | error : String → Option String → Bool → Downstream
deriving DecidableEq

/-- The client, with its tracked aerodromes (the channel is modelled by
passing the drained inbound messages to `tick` and returning the sent
envelopes). -/
structure Client : Type where
  aerodromes : List (String × Aerodrome)
deriving DecidableEq

/-- Whether an aerodrome is tracked. -/
def Client.tracks (c : Client) (icao : String) : Bool :=
  (c.aerodromes.find? (fun e => e.1 = icao)).isSome

/-- Update the aerodrome stored under a key, when present. -/
def alModify (m : List (String × Aerodrome)) (k : String)
    (f : Aerodrome → Aerodrome) : List (String × Aerodrome) :=
  m.map (fun e => if e.1 = k then (k, f e.2) else e)

/-- One inbound message of the drain loop of `Client::tick`; returns the
new client, the envelopes sent upstream, and the user-facing strings. -/
def Client.processMessage (c : Client) (m : Downstream) :
    Client × List Upstream × List String :=
  match m with
  | .config data =>
      if c.tracks data.icao then (c, [], [])
      else ({ aerodromes := c.aerodromes ++ [(data.icao, Aerodrome.new data)] }, [], [])
  | .control icao control =>
      ({ aerodromes := alModify c.aerodromes icao (fun a =>
          { a with state := if control then .controlling else .observing }) }, [], [])
  | .patch icao patch =>
      ({ aerodromes := alModify c.aerodromes icao (fun a => a.apply_patch patch) }, [], [])
  | .aircraft icao aircraft =>
      ({ aerodromes := alModify c.aerodromes icao (fun a =>
          { a with aircraft := aircraft }) }, [], [])
  | .error icao message disconnect =>
      let msgs := ["server: " ++ icao ++ ": " ++ message.getD "error"]
      if disconnect then
        ({ aerodromes := c.aerodromes.filter (fun e => e.1 ≠ icao) },
          [Upstream.track icao false], msgs)
      else (c, [], msgs)

/-- The message drain loop of `Client::tick` (FIFO), accumulating the
envelopes sent and the user-facing strings. -/
def Client.drainGo : Client → List Downstream → List Upstream →
    List String → Client × List Upstream × List String
  | c, [], ups, strs => (c, ups, strs)
  | c, m :: msgs, ups, strs =>
      let r := c.processMessage m
      Client.drainGo r.1 msgs (ups ++ r.2.1) (strs ++ r.2.2)

/-- The message drain half of `Client::tick`. -/
def Client.drain (c : Client) (msgs : List Downstream) :
    Client × List Upstream × List String :=
  Client.drainGo c msgs [] []

/-- The per-aerodrome flush of `Client::tick`: fire timers, then transmit
the pending patch and scenery only when non-empty. -/
def Client.flushAerodrome (now : Nat) (e : String × Aerodrome) :
    (String × Aerodrome) × List Upstream :=
  let a := e.2.tick now
  let patch := a.pending_patch
  let a := { a with pending_patch := Proto.Patch.defaultPatch }
  let ups : List Upstream :=
    if patch.is_empty then [] else [Upstream.patch e.1 patch]
  let scenery := a.pending_scenery
  let a := { a with pending_scenery := [] }
  let ups := ups ++ (if smapIsEmpty scenery then [] else [Upstream.scenery e.1 scenery])
  ((e.1, a), ups)

/-- The per-aerodrome loop of the flush half of `Client::tick`. -/
def Client.flushGo (now : Nat) :
    List (String × Aerodrome) → List (String × Aerodrome) × List Upstream
  | [] => ([], [])
  | e :: rest =>
      let r := Client.flushAerodrome now e
      let q := Client.flushGo now rest
      (r.1 :: q.1, r.2 ++ q.2)

/-- The flush half of `Client::tick`. -/
def Client.flush (c : Client) (now : Nat) : Client × List Upstream :=
  let r := Client.flushGo now c.aerodromes
  ({ aerodromes := r.1 }, r.2)

/-- `Client::tick`: drain inbound messages, then flush every aerodrome;
returns the client, all envelopes sent, and the user-facing strings. -/
def Client.tick (c : Client) (msgs : List Downstream) (now : Nat) :
    Client × List Upstream × List String :=
  let d := c.drain msgs
  let f := d.1.flush now
  (f.1, d.2.1 ++ f.2, d.2.2)

end Clt

namespace Srv

/-- `serde_json::Value` (the numeric payload, irrelevant to the merge, is
carried as an `Int`). -/
inductive Json : Type where
  | null : Json
  | bool : Bool → Json
  | num : Int → Json
  | str : String → Json
  | arr : List Json → Json
  | obj : List (String × Json) → Json

/-- `Value::is_object`. -/
def Json.isObj : Json → Bool
  | .obj _ => true
  | _ => false

/-- Lookup of a key of a JSON object (first match; objects of the server
have unique keys). -/
def jlookup : List (String × Json) → String → Option Json
  | [], _ => none
  | e :: l, k => if e.1 = k then some e.2 else jlookup l k

/-- Replace the value bound to `k` (appends when the key is absent; only
called on present keys). -/
def replaceValue : List (String × Json) → String → Json → List (String × Json)
  | [], k, v => [(k, v)]
  | (k', w) :: rest, k, v =>
      if k' = k then (k', v) :: rest
      else (k', w) :: replaceValue rest k v

mutual

/-- `Aerodrome::merge_state`'s inner `merge`: recurse when both sides are
objects, otherwise replace the target by the source. -/
def Json.merge : Json → Json → Json
  | .obj t, .obj s => .obj (Json.mergeList t s)
  | _, s => s

/-- The `for (key, value) in source` loop of `merge`: recurse into keys
already present, insert fresh keys. -/
def Json.mergeList (t : List (String × Json)) :
    List (String × Json) → List (String × Json)
  | [] => t
  | (k, v) :: rest =>
      let t' :=
        match t.find? (fun e => e.1 = k) with
        | some e => replaceValue t k (Json.merge e.2 v)
        | none => t ++ [(k, v)]
      Json.mergeList t' rest

end

end Srv

namespace Mgr

/-- Word size of the `usize` tracker counter. -/
def USIZE : Nat := 18446744073709551616

/-- The guarded reference-count update of `AerodromeManager::track`:
increment on `track(true)`, decrement on `track(false)` only when the
count is positive. -/
def trackStep (t : Nat) (track : Bool) : Nat :=
  if track then (t + 1) % USIZE
  else if 0 < t then t - 1 else t

/-- The tracker count after a sequence of `track` calls starting from a
fresh manager (`trackers: 0`). -/
def runTrack (s : List Bool) : Nat :=
  s.foldl trackStep 0

/-- The number of decrements of the sequence that found a positive count
(those actually performed). -/
def effDecrs : Nat → List Bool → Nat
  | _, [] => 0
  | t, true :: s => effDecrs (trackStep t true) s
  | t, false :: s =>
      if 0 < t then effDecrs (t - 1) s + 1 else effDecrs t s

/-- The number of increments (`track(true)` calls) of a sequence. -/
def countIncr (s : List Bool) : Nat :=
  s.countP (fun b => b = true)

end Mgr

namespace Codec

/-- Modelled from the spec: the persistent-file codec of `Config` — the
source delegates the body to the external `bincode` crate (absent from the
repository), which the spec describes only as "binary-encoded `Config`"
preserved by encode/decode; the body codec below is a self-delimiting
binary code over byte-like symbols standing in for it. The `MAGIC` bytes,
the big-endian version word and their checks are translated from
`Config::load`/`Config::save` in `config/src/lib.rs` (the external codec's
16 MiB frame limit is not modelled). -/
def MAGIC : List Nat := [255, 66, 65, 82, 83, 19, 101, 117]

/-- Big-endian bytes of the `u16` version 0. -/
def VERSION_BYTES : List Nat := [0, 0]

/-- Self-delimiting code of a natural number. -/
def encNat (n : Nat) : List Nat :=
  List.replicate n 1 ++ [0]

/-- Decoder of `encNat`. -/
def decNat : List Nat → Option (Nat × List Nat)
  | 0 :: r => some (0, r)
  | 1 :: r => (decNat r).map (fun p => (p.1 + 1, p.2))
  | _ => none

/-- Code of a boolean. -/
def encBool (b : Bool) : List Nat :=
  [if b then 1 else 0]

/-- Decoder of `encBool`. -/
def decBool : List Nat → Option (Bool × List Nat)
  | 0 :: r => some (false, r)
  | 1 :: r => some (true, r)
  | _ => none

/-- Code of an `Option`. -/
def encOpt {α : Type} (f : α → List Nat) : Option α → List Nat
  | Option.none => [0]
  | Option.some x => 1 :: f x

/-- Decoder of `encOpt`. -/
def decOpt {α : Type} (d : List Nat → Option (α × List Nat)) :
    List Nat → Option (Option α × List Nat)
  | 0 :: r => some (none, r)
  | 1 :: r => (d r).map (fun p => (some p.1, p.2))
  | _ => none

/-- Code of a pair. -/
def encPair {α β : Type} (f : α → List Nat) (g : β → List Nat)
    (p : α × β) : List Nat :=
  f p.1 ++ g p.2

/-- Decoder of `encPair`. -/
def decPair {α β : Type} (d : List Nat → Option (α × List Nat))
    (e : List Nat → Option (β × List Nat)) (r : List Nat) :
    Option ((α × β) × List Nat) :=
  (d r).bind (fun p => (e p.2).map (fun q => ((p.1, q.1), q.2)))

/-- Code of a list: its length, then its elements. -/
def encList {α : Type} (f : α → List Nat) (xs : List α) : List Nat :=
  encNat xs.length ++ (xs.map f).flatten

/-- Element-count-driven list decoder. -/
def decListAux {α : Type} (d : List Nat → Option (α × List Nat)) :
    Nat → List Nat → Option (List α × List Nat)
  | 0, r => some ([], r)
  | n + 1, r =>
      (d r).bind (fun p =>
        (decListAux d n p.2).map (fun q => (p.1 :: q.1, q.2)))

/-- Decoder of `encList`. -/
def decList {α : Type} (d : List Nat → Option (α × List Nat))
    (r : List Nat) : Option (List α × List Nat) :=
  (decNat r).bind (fun p => decListAux d p.1 p.2)

/-- Code of a character. -/
def encChar (c : Char) : List Nat :=
  encNat c.toNat

/-- Decoder of `encChar`. -/
def decChar (r : List Nat) : Option (Char × List Nat) :=
  (decNat r).map (fun p => (Char.ofNat p.1, p.2))

/-- Code of a string, as its character codes. -/
def encString (s : String) : List Nat :=
  encList encChar s.data

/-- Decoder of `encString`. -/
def decString (r : List Nat) : Option (String × List Nat) :=
  (decList decChar r).map (fun p => (String.mk p.1, p.2))

/-- Code of `Point`. -/
def encPoint (p : Cfg.Point) : List Nat :=
  encNat p.x ++ encNat p.y

/-- Decoder of `encPoint`. -/
def decPoint (r : List Nat) : Option (Cfg.Point × List Nat) :=
  (decNat r).bind (fun p =>
    (decNat p.2).map (fun q => ({ x := p.1, y := q.1 }, q.2)))

/-- Code of `Geo`. -/
def encGeo (g : Cfg.Geo) : List Nat :=
  encNat g.lat ++ encNat g.lon

/-- Decoder of `encGeo`. -/
def decGeo (r : List Nat) : Option (Cfg.Geo × List Nat) :=
  (decNat r).bind (fun p =>
    (decNat p.2).map (fun q => ({ lat := p.1, lon := q.1 }, q.2)))

/-- Code of `GeoPoint`. -/
def encGeoPoint (g : Cfg.GeoPoint) : List Nat :=
  encGeo g.geo ++ encPoint g.offset

/-- Decoder of `encGeoPoint`. -/
def decGeoPoint (r : List Nat) : Option (Cfg.GeoPoint × List Nat) :=
  (decGeo r).bind (fun p =>
    (decPoint p.2).map (fun q => ({ geo := p.1, offset := q.1 }, q.2)))

/-- Code of `Color`. -/
def encColor (c : Cfg.Color) : List Nat :=
  encNat c.r ++ encNat c.g ++ encNat c.b ++ encNat c.a

/-- Decoder of `encColor`. -/
def decColor (r : List Nat) : Option (Cfg.Color × List Nat) :=
  (decNat r).bind (fun p1 =>
    (decNat p1.2).bind (fun p2 =>
      (decNat p2.2).bind (fun p3 =>
        (decNat p3.2).map (fun p4 =>
          ({ r := p1.1, g := p2.1, b := p3.1, a := p4.1 }, p4.2)))))

/-- Code of `FillStyle`. -/
def encFillStyle : Cfg.FillStyle → List Nat
  | .noFill => [0]
  | .solid => [1]
  | .hatchHorizontal => [2]
  | .hatchVertical => [3]
  | .hatchForwardDiagonal => [4]
  | .hatchBackwardDiagonal => [5]
  | .hatchCross => [6]
  | .hatchDiagonalCross => [7]

/-- Decoder of `encFillStyle`. -/
def decFillStyle : List Nat → Option (Cfg.FillStyle × List Nat)
  | 0 :: r => some (.noFill, r)
  | 1 :: r => some (.solid, r)
  | 2 :: r => some (.hatchHorizontal, r)
  | 3 :: r => some (.hatchVertical, r)
  | 4 :: r => some (.hatchForwardDiagonal, r)
  | 5 :: r => some (.hatchBackwardDiagonal, r)
  | 6 :: r => some (.hatchCross, r)
  | 7 :: r => some (.hatchDiagonalCross, r)
  | _ => none

/-- Code of `Style`. -/
def encStyle (s : Cfg.Style) : List Nat :=
  encNat s.stroke_width ++ encColor s.stroke_color ++
    encFillStyle s.fill_style ++ encColor s.fill_color

/-- Decoder of `encStyle`. -/
def decStyle (r : List Nat) : Option (Cfg.Style × List Nat) :=
  (decNat r).bind (fun p1 =>
    (decColor p1.2).bind (fun p2 =>
      (decFillStyle p2.2).bind (fun p3 =>
        (decColor p3.2).map (fun p4 =>
          ({ stroke_width := p1.1, stroke_color := p2.1,
             fill_style := p3.1, fill_color := p4.1 }, p4.2)))))

/-- Code of `Path<T>`. -/
def encCPath {T : Type} (f : T → List Nat) (p : Cfg.CPath T) : List Nat :=
  encList f p.points ++ encNat p.style

/-- Decoder of `encCPath`. -/
def decCPath {T : Type} (d : List Nat → Option (T × List Nat))
    (r : List Nat) : Option (Cfg.CPath T × List Nat) :=
  (decList d r).bind (fun p =>
    (decNat p.2).map (fun q => ({ points := p.1, style := q.1 }, q.2)))

/-- Code of `Target<T>`. -/
def encTarget {T : Type} (f : T → List Nat) (t : Cfg.Target T) : List Nat :=
  encList f t.points

/-- Decoder of `encTarget`. -/
def decTarget {T : Type} (d : List Nat → Option (T × List Nat))
    (r : List Nat) : Option (Cfg.Target T × List Nat) :=
  (decList d r).map (fun p => ({ points := p.1 }, p.2))

/-- Code of `NodeDisplay<T>`. -/
def encNodeDisplay {T : Type} (f : T → List Nat) (n : Cfg.NodeDisplay T) :
    List Nat :=
  encList (encCPath f) n.off ++ encList (encCPath f) n.on ++
    encList (encCPath f) n.selected ++ encTarget f n.target

/-- Decoder of `encNodeDisplay`. -/
def decNodeDisplay {T : Type} (d : List Nat → Option (T × List Nat))
    (r : List Nat) : Option (Cfg.NodeDisplay T × List Nat) :=
  (decList (decCPath d) r).bind (fun p1 =>
    (decList (decCPath d) p1.2).bind (fun p2 =>
      (decList (decCPath d) p2.2).bind (fun p3 =>
        (decTarget d p3.2).map (fun p4 =>
          ({ off := p1.1, «on» := p2.1, selected := p3.1, target := p4.1 },
            p4.2)))))

/-- Code of `EdgeDisplay<T>`. -/
def encEdgeDisplay {T : Type} (f : T → List Nat) (n : Cfg.EdgeDisplay T) :
    List Nat :=
  encList (encCPath f) n.off ++ encList (encCPath f) n.on

/-- Decoder of `encEdgeDisplay`. -/
def decEdgeDisplay {T : Type} (d : List Nat → Option (T × List Nat))
    (r : List Nat) : Option (Cfg.EdgeDisplay T × List Nat) :=
  (decList (decCPath d) r).bind (fun p1 =>
    (decList (decCPath d) p1.2).map (fun p2 =>
      ({ off := p1.1, «on» := p2.1 }, p2.2)))

/-- Code of `BlockDisplay<T>`. -/
def encBlockDisplay {T : Type} (f : T → List Nat) (n : Cfg.BlockDisplay T) :
    List Nat :=
  encTarget f n.target

/-- Decoder of `encBlockDisplay`. -/
def decBlockDisplay {T : Type} (d : List Nat → Option (T × List Nat))
    (r : List Nat) : Option (Cfg.BlockDisplay T × List Nat) :=
  (decTarget d r).map (fun p => ({ target := p.1 }, p.2))

/-- Code of `ElementCondition`. -/
def encElementCondition : Cfg.ElementCondition → List Nat
  | .fixed b => 0 :: encBool b
  | .node n => 1 :: encNat n
  | .edge n => 2 :: encNat n

/-- Decoder of `encElementCondition`. -/
def decElementCondition : List Nat → Option (Cfg.ElementCondition × List Nat)
  | 0 :: r => (decBool r).map (fun p => (.fixed p.1, p.2))
  | 1 :: r => (decNat r).map (fun p => (.node p.1, p.2))
  | 2 :: r => (decNat r).map (fun p => (.edge p.1, p.2))
  | _ => none

/-- Code of `Element`. -/
def encElement (e : Cfg.Element) : List Nat :=
  encString e.id ++ encElementCondition e.condition

/-- Decoder of `encElement`. -/
def decElement (r : List Nat) : Option (Cfg.Element × List Nat) :=
  (decString r).bind (fun p =>
    (decElementCondition p.2).map (fun q =>
      ({ id := p.1, condition := q.1 }, q.2)))

/-- Code of `Node`. -/
def encNode (n : Cfg.Node) : List Nat :=
  encString n.id ++ encOpt encString n.scratchpad ++ encOpt encNat n.parent ++
    encNodeDisplay encGeoPoint n.display

/-- Decoder of `encNode`. -/
def decNode (r : List Nat) : Option (Cfg.Node × List Nat) :=
  (decString r).bind (fun p1 =>
    (decOpt decString p1.2).bind (fun p2 =>
      (decOpt decNat p2.2).bind (fun p3 =>
        (decNodeDisplay decGeoPoint p3.2).map (fun p4 =>
          ({ id := p1.1, scratchpad := p2.1, parent := p3.1,
             display := p4.1 }, p4.2)))))

/-- Code of `Edge`. -/
def encEdge (e : Cfg.Edge) : List Nat :=
  encEdgeDisplay encGeoPoint e.display

/-- Decoder of `encEdge`. -/
def decEdge (r : List Nat) : Option (Cfg.Edge × List Nat) :=
  (decEdgeDisplay decGeoPoint r).map (fun p => ({ display := p.1 }, p.2))

/-- Code of `Block`. -/
def encBlock (b : Cfg.Block) : List Nat :=
  encString b.id ++ encList encNat b.nodes ++ encList encNat b.edges ++
    encList (encPair encNat encNat) b.non_routes ++
    encList encString b.stands ++ encBlockDisplay encGeoPoint b.display

/-- Decoder of `encBlock`. -/
def decBlock (r : List Nat) : Option (Cfg.Block × List Nat) :=
  (decString r).bind (fun p1 =>
    (decList decNat p1.2).bind (fun p2 =>
      (decList decNat p2.2).bind (fun p3 =>
        (decList (decPair decNat decNat) p3.2).bind (fun p4 =>
          (decList decString p4.2).bind (fun p5 =>
            (decBlockDisplay decGeoPoint p5.2).map (fun p6 =>
              ({ id := p1.1, nodes := p2.1, edges := p3.1,
                 non_routes := p4.1, stands := p5.1, display := p6.1 },
                p6.2)))))))

/-- Code of `ResetCondition`. -/
def encResetCondition : Cfg.ResetCondition → List Nat
  | .noReset => [0]
  | .timeSecs n => 1 :: encNat n

/-- Decoder of `encResetCondition`. -/
def decResetCondition : List Nat → Option (Cfg.ResetCondition × List Nat)
  | 0 :: r => some (.noReset, r)
  | 1 :: r => (decNat r).map (fun p => (.timeSecs p.1, p.2))
  | _ => none

/-- Code of `NodeCondition`. -/
def encNodeCondition : Cfg.NodeCondition → List Nat
  | .fixed b => 0 :: encBool b
  | .direct rc => 1 :: encResetCondition rc
  | .router => [2]

/-- Decoder of `encNodeCondition`. -/
def decNodeCondition : List Nat → Option (Cfg.NodeCondition × List Nat)
  | 0 :: r => (decBool r).map (fun p => (.fixed p.1, p.2))
  | 1 :: r => (decResetCondition r).map (fun p => (.direct p.1, p.2))
  | 2 :: r => some (.router, r)
  | _ => none

/-- Code of `EdgeCondition`. -/
def encEdgeCondition : Cfg.EdgeCondition → List Nat
  | .fixed b => 0 :: encBool b
  | .direct n => 1 :: encNat n
  | .router block routes => 2 :: (encNat block ++ encList (encPair encNat encNat) routes)

/-- Decoder of `encEdgeCondition`. -/
def decEdgeCondition : List Nat → Option (Cfg.EdgeCondition × List Nat)
  | 0 :: r => (decBool r).map (fun p => (.fixed p.1, p.2))
  | 1 :: r => (decNat r).map (fun p => (.direct p.1, p.2))
  | 2 :: r =>
      (decNat r).bind (fun p =>
        (decList (decPair decNat decNat) p.2).map (fun q =>
          (.router p.1 q.1, q.2)))
  | _ => none

/-- Code of `BlockCondition`. -/
def encBlockCondition (b : Cfg.BlockCondition) : List Nat :=
  encResetCondition b.reset

/-- Decoder of `encBlockCondition`. -/
def decBlockCondition (r : List Nat) : Option (Cfg.BlockCondition × List Nat) :=
  (decResetCondition r).map (fun p => ({ reset := p.1 }, p.2))

/-- Code of the config `BlockState`. -/
def encBlockState : Cfg.BlockState → List Nat
  | .clear => [0]
  | .relax => [1]
  | .route p => 2 :: encPair encNat encNat p

/-- Decoder of `encBlockState`. -/
def decBlockState : List Nat → Option (Cfg.BlockState × List Nat)
  | 0 :: r => some (.clear, r)
  | 1 :: r => some (.relax, r)
  | 2 :: r => (decPair decNat decNat r).map (fun p => (.route p.1, p.2))
  | _ => none

/-- Code of `Preset`. -/
def encPreset (p : Cfg.Preset) : List Nat :=
  encString p.name ++ encList (encPair encNat encBool) p.nodes ++
    encList (encPair encNat encBlockState) p.blocks

/-- Decoder of `encPreset`. -/
def decPreset (r : List Nat) : Option (Cfg.Preset × List Nat) :=
  (decString r).bind (fun p1 =>
    (decList (decPair decNat decBool) p1.2).bind (fun p2 =>
      (decList (decPair decNat decBlockState) p2.2).map (fun p3 =>
        ({ name := p1.1, nodes := p2.1, blocks := p3.1 }, p3.2))))

/-- Code of `Profile`. -/
def encProfile (p : Cfg.Profile) : List Nat :=
  encString p.id ++ encString p.name ++ encList encNodeCondition p.nodes ++
    encList encEdgeCondition p.edges ++ encList encBlockCondition p.blocks ++
    encList encPreset p.presets

/-- Decoder of `encProfile`. -/
def decProfile (r : List Nat) : Option (Cfg.Profile × List Nat) :=
  (decString r).bind (fun p1 =>
    (decString p1.2).bind (fun p2 =>
      (decList decNodeCondition p2.2).bind (fun p3 =>
        (decList decEdgeCondition p3.2).bind (fun p4 =>
          (decList decBlockCondition p4.2).bind (fun p5 =>
            (decList decPreset p5.2).map (fun p6 =>
              ({ id := p1.1, name := p2.1, nodes := p3.1, edges := p4.1,
                 blocks := p5.1, presets := p6.1 }, p6.2)))))))

/-- Code of `Map`. -/
def encCMap (m : Cfg.CMap) : List Nat :=
  encColor m.background ++ encList (encCPath encPoint) m.base ++
    encList (encNodeDisplay encPoint) m.nodes ++
    encList (encEdgeDisplay encPoint) m.edges ++
    encList (encBlockDisplay encPoint) m.blocks

/-- Decoder of `encCMap`. -/
def decCMap (r : List Nat) : Option (Cfg.CMap × List Nat) :=
  (decColor r).bind (fun p1 =>
    (decList (decCPath decPoint) p1.2).bind (fun p2 =>
      (decList (decNodeDisplay decPoint) p2.2).bind (fun p3 =>
        (decList (decEdgeDisplay decPoint) p3.2).bind (fun p4 =>
          (decList (decBlockDisplay decPoint) p4.2).map (fun p5 =>
            ({ background := p1.1, base := p2.1, nodes := p3.1,
               edges := p4.1, blocks := p5.1 }, p5.2))))))

/-- Code of `Box`. -/
def encCBox (b : Cfg.CBox) : List Nat :=
  encPoint b.min ++ encPoint b.max

/-- Decoder of `encCBox`. -/
def decCBox (r : List Nat) : Option (Cfg.CBox × List Nat) :=
  (decPoint r).bind (fun p =>
    (decPoint p.2).map (fun q => ({ min := p.1, max := q.1 }, q.2)))

/-- Code of `View`. -/
def encView (v : Cfg.View) : List Nat :=
  encString v.name ++ encNat v.map ++ encCBox v.bounds

/-- Decoder of `encView`. -/
def decView (r : List Nat) : Option (Cfg.View × List Nat) :=
  (decString r).bind (fun p1 =>
    (decNat p1.2).bind (fun p2 =>
      (decCBox p2.2).map (fun p3 =>
        ({ name := p1.1, map := p2.1, bounds := p3.1 }, p3.2))))

/-- Code of the config `Aerodrome`. -/
def encAerodrome (a : Cfg.Aerodrome) : List Nat :=
  encString a.icao ++ encList encElement a.elements ++
    encList encNode a.nodes ++ encList encEdge a.edges ++
    encList encBlock a.blocks ++ encList encProfile a.profiles ++
    encList encCMap a.maps ++ encList encView a.views ++
    encList encStyle a.styles

/-- Decoder of `encAerodrome`. -/
def decAerodrome (r : List Nat) : Option (Cfg.Aerodrome × List Nat) :=
  (decString r).bind (fun p1 =>
    (decList decElement p1.2).bind (fun p2 =>
      (decList decNode p2.2).bind (fun p3 =>
        (decList decEdge p3.2).bind (fun p4 =>
          (decList decBlock p4.2).bind (fun p5 =>
            (decList decProfile p5.2).bind (fun p6 =>
              (decList decCMap p6.2).bind (fun p7 =>
                (decList decView p7.2).bind (fun p8 =>
                  (decList decStyle p8.2).map (fun p9 =>
                    ({ icao := p1.1, elements := p2.1, nodes := p3.1,
                       edges := p4.1, blocks := p5.1, profiles := p6.1,
                       maps := p7.1, views := p8.1, styles := p9.1 },
                      p9.2))))))))))

/-- Code of `Config`. -/
def encConfig (c : Cfg.Config) : List Nat :=
  encOpt encString c.name ++ encOpt encString c.version ++
    encList encAerodrome c.aerodromes

/-- Decoder of `encConfig`. -/
def decConfig (r : List Nat) : Option (Cfg.Config × List Nat) :=
  (decOpt decString r).bind (fun p1 =>
    (decOpt decString p1.2).bind (fun p2 =>
      (decList decAerodrome p2.2).map (fun p3 =>
        ({ name := p1.1, version := p2.1, aerodromes := p3.1 }, p3.2))))

/-- `Config::save`: magic bytes, big-endian `u16` version, then the
binary-encoded `Config`. -/
def saveConfig (c : Cfg.Config) : List Nat :=
  MAGIC ++ VERSION_BYTES ++ encConfig c

/-- `Config::load`: check the 8 magic bytes (a short read fails), then the
version word, then decode the body; any failure is an error and no config
is produced. -/
def loadConfig (b : List Nat) : Except String Cfg.Config :=
  if b.take 8 ≠ MAGIC then .error "invalid config file"
  else if (b.drop 8).take 2 ≠ VERSION_BYTES then
    .error "unsupported config version"
  else
    match decConfig (b.drop 10) with
    | some p => .ok p.1
    | none => .error "decode failed"

end Codec

namespace Ex

/-- A small three-node, two-block aerodrome configuration used to
instantiate the theorems at concrete inputs. -/
def exCfg : Cfg.Aerodrome :=
  { icao := "AAAA"
    elements := []
    nodes := [
      { id := "A", scratchpad := none, parent := none, display := default },
      { id := "F", scratchpad := none, parent := none, display := default },
      { id := "B", scratchpad := none, parent := none, display := default },
      { id := "X", scratchpad := none, parent := none, display := default }]
    edges := []
    blocks := [
      { id := "BK1", nodes := [0, 1], edges := [], non_routes := [],
        stands := [], display := default },
      { id := "BK2", nodes := [1, 2], edges := [], non_routes := [],
        stands := [], display := default }]
    profiles := [
      { id := "day", name := "Day"
        nodes := [.router, .direct (.timeSecs 5), .router, .fixed true]
        edges := []
        blocks := [{ reset := .noReset }, { reset := .noReset }]
        presets := [{ name := "all", nodes := [(1, true)], blocks := [] }] }]
    maps := []
    views := []
    styles := [] }

/-- The client-side state freshly built from `exCfg`. -/
def exAero : Clt.Aerodrome := Clt.Aerodrome.new exCfg

end Ex

theorem smapLookup_eq_none {V : Type} (m : SMap V) (k : String)
    (h : k ∉ m.map Prod.fst) : smapLookup m k = none := by
  induction m with
  | nil => rfl
  | cons e m ih =>
      simp only [List.map_cons, List.mem_cons] at h
      push_neg at h
      have hne : ¬ (e.1 = k) := fun hh => h.1 hh.symm
      simp [smapLookup, hne, ih h.2]

theorem smapLookup_filter_ne {V : Type} (m : SMap V) (k k' : String)
    (h : k' ≠ k) :
    smapLookup (m.filter (fun e => e.1 ≠ k)) k' = smapLookup m k' := by
  induction m with
  | nil => rfl
  | cons e m ih =>
      by_cases he : e.1 = k
      · have hne : ¬ (e.1 = k') := by
          rw [he]; exact fun hh => h hh.symm
        rw [List.filter_cons_of_neg (by simp [he]), ih]
        simp [smapLookup, hne]
      · rw [List.filter_cons_of_pos (by simp [he])]
        simp only [smapLookup]
        rw [ih]

theorem smapLookup_insert {V : Type} (m : SMap V) (k k' : String) (v : V) :
    smapLookup (smapInsert m k v) k' =
      if k' = k then some v else smapLookup m k' := by
  by_cases h : k' = k
  · subst h
    simp [smapInsert, smapLookup]
  · have h2 : ¬ (k = k') := fun hh => h hh.symm
    simp only [smapInsert, smapLookup, if_neg h, if_neg h2]
    exact smapLookup_filter_ne m k k' h

theorem smapNodup_filter {V : Type} (m : SMap V) (p : String × V → Bool)
    (h : SMapNodup m) : SMapNodup (m.filter p) :=
  List.Nodup.sublist ((List.filter_sublist m).map Prod.fst) h

theorem smapNodup_insert {V : Type} (m : SMap V) (k : String) (v : V)
    (h : SMapNodup m) : SMapNodup (smapInsert m k v) := by
  have hf : SMapNodup (m.filter (fun e => e.1 ≠ k)) :=
    smapNodup_filter m _ h
  simp only [SMapNodup, smapInsert, List.map_cons, List.nodup_cons]
  refine ⟨?_, hf⟩
  intro hmem
  obtain ⟨e, he, hke⟩ := List.mem_map.1 hmem
  have := List.of_mem_filter he
  simp only [decide_not, Bool.not_eq_eq_eq_not, Bool.not_true,
    decide_eq_false_iff_not] at this
  exact this hke

theorem smapNodup_extend {V : Type} (p m : SMap V) (h : SMapNodup m) :
    SMapNodup (smapExtend m p) := by
  induction p generalizing m with
  | nil => exact h
  | cons e p ih => exact ih _ (smapNodup_insert m e.1 e.2 h)

theorem smapLookup_extend {V : Type} (p m : SMap V) (k : String)
    (hp : SMapNodup p) :
    smapLookup (smapExtend m p) k = (smapLookup p k).or (smapLookup m k) := by
  induction p generalizing m with
  | nil => simp [smapExtend, smapLookup]
  | cons e p ih =>
      have hp' : SMapNodup p := (List.nodup_cons.1 hp).2
      have hk : e.1 ∉ p.map Prod.fst := (List.nodup_cons.1 hp).1
      show smapLookup (smapExtend (smapInsert m e.1 e.2) p) k = _
      rw [ih _ hp']
      by_cases h : k = e.1
      · have hnone : smapLookup p e.1 = none := smapLookup_eq_none p e.1 hk
        simp [h, hnone, smapLookup_insert, smapLookup, Option.or]
      · have h2 : ¬ (e.1 = k) := fun hh => h hh.symm
        rw [smapLookup_insert m e.1 k e.2, if_neg h]
        simp only [smapLookup, if_neg h2]

/-- C2: applying patch `a` and then patch `b` to a protocol `Aerodrome`
yields the same profile and the same node and block maps (extensionally,
as a `HashMap` is identified by its key-value pairs) as applying the single
merged patch `Patch::apply_patch a b` — profile of `b` wins when present,
maps extend key-wise with `b` winning on collisions. The patches' maps
carry each key once, as a `HashMap` does. -/
theorem C2_apply_patch_merge (s : Proto.Aerodrome) (a b : Proto.Patch)
    (ha1 : SMapNodup a.nodes) (ha2 : SMapNodup a.blocks)
    (hb1 : SMapNodup b.nodes) (hb2 : SMapNodup b.blocks) :
    ((s.apply_patch a).apply_patch b).profile =
        (s.apply_patch (a.apply_patch b)).profile ∧
    (∀ k, smapLookup ((s.apply_patch a).apply_patch b).nodes k =
        smapLookup (s.apply_patch (a.apply_patch b)).nodes k) ∧
    (∀ k, smapLookup ((s.apply_patch a).apply_patch b).blocks k =
        smapLookup (s.apply_patch (a.apply_patch b)).blocks k) := by
  refine ⟨?_, ?_, ?_⟩
  · simp only [Proto.Aerodrome.apply_patch, Proto.Patch.apply_patch]
    cases b.profile <;> cases a.profile <;> simp
  · intro k
    simp only [Proto.Aerodrome.apply_patch, Proto.Patch.apply_patch]
    rw [smapLookup_extend _ _ _ hb1, smapLookup_extend _ _ _ ha1,
      smapLookup_extend _ _ _ (smapNodup_extend b.nodes a.nodes ha1),
      smapLookup_extend _ _ _ hb1]
    cases smapLookup b.nodes k <;> cases smapLookup a.nodes k <;>
      simp [Option.or]
  · intro k
    simp only [Proto.Aerodrome.apply_patch, Proto.Patch.apply_patch]
    rw [smapLookup_extend _ _ _ hb2, smapLookup_extend _ _ _ ha2,
      smapLookup_extend _ _ _ (smapNodup_extend b.blocks a.blocks ha2),
      smapLookup_extend _ _ _ hb2]
    cases smapLookup b.blocks k <;> cases smapLookup a.blocks k <;>
      simp [Option.or]

theorem processMessage_no_patch (c : Clt.Client) (m : Clt.Downstream)
    (icao : String) (p : Proto.Patch) :
    Clt.Upstream.patch icao p ∉ (c.processMessage m).2.1 := by
  cases m <;> simp only [Clt.Client.processMessage] <;> (try split) <;> simp

theorem drainGo_ups_mono (msgs : List Clt.Downstream) :
    ∀ (c : Clt.Client) ups strs (u : Clt.Upstream), u ∈ ups →
      u ∈ (Clt.Client.drainGo c msgs ups strs).2.1 := by
  induction msgs with
  | nil =>
      intro c ups strs u h
      simpa [Clt.Client.drainGo] using h
  | cons m msgs ih =>
      intro c ups strs u h
      simp only [Clt.Client.drainGo]
      exact ih _ _ _ _ (List.mem_append_left _ h)

theorem drainGo_strs_mono (msgs : List Clt.Downstream) :
    ∀ (c : Clt.Client) ups strs (s : String), s ∈ strs →
      s ∈ (Clt.Client.drainGo c msgs ups strs).2.2 := by
  induction msgs with
  | nil =>
      intro c ups strs s h
      simpa [Clt.Client.drainGo] using h
  | cons m msgs ih =>
      intro c ups strs s h
      simp only [Clt.Client.drainGo]
      exact ih _ _ _ _ (List.mem_append_left _ h)

theorem drainGo_no_patch (msgs : List Clt.Downstream) :
    ∀ (c : Clt.Client) ups strs (icao : String) (p : Proto.Patch),
      Clt.Upstream.patch icao p ∉ ups →
      Clt.Upstream.patch icao p ∉ (Clt.Client.drainGo c msgs ups strs).2.1 := by
  induction msgs with
  | nil =>
      intro c ups strs icao p h
      simpa [Clt.Client.drainGo] using h
  | cons m msgs ih =>
      intro c ups strs icao p h
      simp only [Clt.Client.drainGo]
      apply ih
      intro hmem
      rcases List.mem_append.1 hmem with h1 | h2
      · exact h h1
      · exact processMessage_no_patch c m icao p h2

theorem flushAerodrome_patch (now : Nat) (e : String × Clt.Aerodrome)
    (icao : String) (p : Proto.Patch)
    (h : Clt.Upstream.patch icao p ∈ (Clt.Client.flushAerodrome now e).2) :
    p.is_empty = false := by
  simp only [Clt.Client.flushAerodrome] at h
  rcases List.mem_append.1 h with h1 | h2
  · split at h1
    · simp at h1
    · next hne =>
        simp only [List.mem_singleton, Clt.Upstream.patch.injEq] at h1
        rw [h1.2]
        exact Bool.not_eq_true _ ▸ hne
  · split at h2 <;> simp at h2

theorem flushGo_patch (now : Nat) (l : List (String × Clt.Aerodrome)) :
    ∀ (icao : String) (p : Proto.Patch),
      Clt.Upstream.patch icao p ∈ (Clt.Client.flushGo now l).2 →
      p.is_empty = false := by
  induction l with
  | nil =>
      intro icao p h
      simp [Clt.Client.flushGo] at h
  | cons e rest ih =>
      intro icao p h
      simp only [Clt.Client.flushGo] at h
      rcases List.mem_append.1 h with h1 | h2
      · exact flushAerodrome_patch now e icao p h1
      · exact ih icao p h2

/-- C8: `Patch::is_empty` holds exactly when the profile is absent and the
node and block maps are empty; and `Client::tick` never transmits an
`Upstream::Patch` whose patch is empty — every patch it sends has a
profile, a node entry or a block entry. -/
theorem C8_is_empty_send_guard :
    (∀ p : Proto.Patch, p.is_empty = true ↔
        (p.profile = none ∧ p.nodes = [] ∧ p.blocks = [])) ∧
    (∀ (c : Clt.Client) (msgs : List Clt.Downstream) (now : Nat)
        (icao : String) (p : Proto.Patch),
        Clt.Upstream.patch icao p ∈ (Clt.Client.tick c msgs now).2.1 →
        p.is_empty = false) := by
  constructor
  · intro p
    simp [Proto.Patch.is_empty, smapIsEmpty, Bool.and_eq_true,
      Option.isNone_iff_eq_none, List.isEmpty_iff, and_assoc]
  · intro c msgs now icao p hmem
    simp only [Clt.Client.tick, Clt.Client.flush, Clt.Client.drain] at hmem
    rcases List.mem_append.1 hmem with h1 | h2
    · exact absurd h1 (drainGo_no_patch msgs c [] [] icao p (by simp))
    · exact flushGo_patch now _ icao p h2

/-- Concrete instance of C8: a tick that does transmit a patch, which is
indeed non-empty. -/
theorem C8_is_empty_send_guard_witness :
    Proto.Patch.is_empty
        { profile := some "day", nodes := [], blocks := [] } = false :=
  C8_is_empty_send_guard.2
    { aerodromes := [("AAAA",
        { config := default
          state := .none
          profile := 0
          node_ids := []
          block_ids := []
          node_blocks := []
          children := []
          nodes := []
          blocks := []
          aircraft := []
          pending_patch := { profile := some "day", nodes := [], blocks := [] }
          pending_scenery := []
          node_timers := []
          block_timers := [] })] }
    [] 0 "AAAA" { profile := some "day", nodes := [], blocks := [] }
    (by decide)

theorem processMessage_error_string (c : Clt.Client) (icao : String)
    (m : Option String) (d : Bool) :
    (c.processMessage (Clt.Downstream.error icao m d)).2.2 =
      ["server: " ++ icao ++ ": " ++ m.getD "error"] := by
  simp only [Clt.Client.processMessage]
  split <;> rfl

theorem drainGo_error_string (msgs : List Clt.Downstream) :
    ∀ (c : Clt.Client) ups strs (icao : String) (m : Option String) (d : Bool),
      Clt.Downstream.error icao m d ∈ msgs →
      ("server: " ++ icao ++ ": " ++ m.getD "error") ∈
        (Clt.Client.drainGo c msgs ups strs).2.2 := by
  induction msgs with
  | nil =>
      intro _ _ _ _ _ _ h
      cases h
  | cons m0 msgs ih =>
      intro c ups strs icao m d h
      rcases List.mem_cons.1 h with h1 | h2
      · subst h1
        simp only [Clt.Client.drainGo]
        apply drainGo_strs_mono
        rw [processMessage_error_string]
        exact List.mem_append_right _ (by simp)
      · simp only [Clt.Client.drainGo]
        exact ih _ _ _ _ _ _ h2

theorem processMessage_error_track (c : Clt.Client) (icao : String)
    (m : Option String) :
    (c.processMessage (Clt.Downstream.error icao m true)).2.1 =
      [Clt.Upstream.track icao false] := by
  simp [Clt.Client.processMessage]

theorem drainGo_error_track (msgs : List Clt.Downstream) :
    ∀ (c : Clt.Client) ups strs (icao : String) (m : Option String),
      Clt.Downstream.error icao m true ∈ msgs →
      Clt.Upstream.track icao false ∈
        (Clt.Client.drainGo c msgs ups strs).2.1 := by
  induction msgs with
  | nil =>
      intro _ _ _ _ _ h
      cases h
  | cons m0 msgs ih =>
      intro c ups strs icao m h
      rcases List.mem_cons.1 h with h1 | h2
      · subst h1
        simp only [Clt.Client.drainGo]
        apply drainGo_ups_mono
        rw [processMessage_error_track]
        exact List.mem_append_right _ (by simp)
      · simp only [Clt.Client.drainGo]
        exact ih _ _ _ _ _ h2

/-- C5: every `Downstream::Error{icao, message, disconnect}` drained by
`Client::tick` contributes the user string `"server: " ++ icao ++ ": " ++
(message or "error")`; with `disconnect = true` the handling of that
message removes the local aerodrome of that icao and sends
`Upstream::Track{icao, track := false}`; with `disconnect = false` it
leaves the client (hence the tracked set) unchanged. -/
theorem C5_error_messages (c : Clt.Client) (msgs : List Clt.Downstream)
    (now : Nat) (icao : String) (m : Option String) (d : Bool)
    (hmem : Clt.Downstream.error icao m d ∈ msgs) :
    ("server: " ++ icao ++ ": " ++ m.getD "error") ∈
        (Clt.Client.tick c msgs now).2.2 ∧
    (d = true →
        Clt.Upstream.track icao false ∈ (Clt.Client.tick c msgs now).2.1) ∧
    (∀ c' : Clt.Client,
        (c'.processMessage (Clt.Downstream.error icao m true)).1.aerodromes =
            c'.aerodromes.filter (fun e => e.1 ≠ icao) ∧
          (c'.processMessage (Clt.Downstream.error icao m true)).2.1 =
            [Clt.Upstream.track icao false]) ∧
    (∀ c' : Clt.Client,
        (c'.processMessage (Clt.Downstream.error icao m false)).1 = c') := by
  refine ⟨?_, ?_, ?_, ?_⟩
  · simp only [Clt.Client.tick, Clt.Client.drain]
    exact drainGo_error_string msgs c [] [] icao m d hmem
  · intro hd
    subst hd
    simp only [Clt.Client.tick, Clt.Client.drain]
    exact List.mem_append_left _ (drainGo_error_track msgs c [] [] icao m hmem)
  · intro c'
    constructor <;> simp [Clt.Client.processMessage]
  · intro c'
    simp [Clt.Client.processMessage]

/-- Concrete instance of C5, at a one-message tick with `disconnect`
set. -/
theorem C5_error_messages_witness :
    ("server: AAAA: link lost") ∈
        (Clt.Client.tick { aerodromes := [] }
          [Clt.Downstream.error "AAAA" (some "link lost") true] 0).2.2 ∧
    (true = true →
        Clt.Upstream.track "AAAA" false ∈
          (Clt.Client.tick { aerodromes := [] }
            [Clt.Downstream.error "AAAA" (some "link lost") true] 0).2.1) :=
  ⟨(C5_error_messages { aerodromes := [] } _ 0 "AAAA" (some "link lost") true
      (by simp)).1,
    fun _ =>
      (C5_error_messages { aerodromes := [] } _ 0 "AAAA" (some "link lost") true
        (by simp)).2.1 rfl⟩

/-- Concrete instance of C2, at a state and two overlapping patches. -/
theorem C2_apply_patch_merge_witness :
    let s : Proto.Aerodrome :=
      { profile := "p0", nodes := [("n1", false)], blocks := [], patch := none }
    let a : Proto.Patch :=
      { profile := some "p1", nodes := [("n1", true), ("n2", false)],
        blocks := [("b1", Proto.BlockState.clear)] }
    let b : Proto.Patch :=
      { profile := none, nodes := [("n2", true)],
        blocks := [("b1", Proto.BlockState.relax)] }
    ((s.apply_patch a).apply_patch b).profile =
        (s.apply_patch (a.apply_patch b)).profile ∧
    (∀ k, smapLookup ((s.apply_patch a).apply_patch b).nodes k =
        smapLookup (s.apply_patch (a.apply_patch b)).nodes k) ∧
    (∀ k, smapLookup ((s.apply_patch a).apply_patch b).blocks k =
        smapLookup (s.apply_patch (a.apply_patch b)).blocks k) :=
  C2_apply_patch_merge _ _ _ (by decide) (by decide) (by decide) (by decide)

/-- C9: the mutating entry points of the client `Aerodrome` are no-ops on
out-of-range indices — `set_profile`, `apply_preset`, `set_block` and
`set_node` return the state unchanged when the index is at least the
corresponding count, so no overlay, pending-patch entry or timer
changes. -/
theorem C9_out_of_range_noop (a : Clt.Aerodrome) (now : Nat) :
    (∀ i, a.config.profiles.length ≤ i → a.set_profile i = a) ∧
    (∀ i, a.activeProfile.presets.length ≤ i → a.apply_preset i = a) ∧
    (∀ i s, a.blocks.length ≤ i → a.set_block now i s = a) ∧
    (∀ i s, a.nodes.length ≤ i → a.set_node now i s = a) := by
  refine ⟨?_, ?_, ?_, ?_⟩
  · intro i h
    rw [Clt.Aerodrome.set_profile, if_pos h]
  · intro i h
    rw [Clt.Aerodrome.apply_preset, if_pos h]
  · intro i s h
    rw [Clt.Aerodrome.set_block, if_pos h]
  · intro i s h
    rw [Clt.Aerodrome.set_node, if_pos h]

/-- Concrete instance of C9 on the sample aerodrome, one index past each
range. -/
theorem C9_out_of_range_noop_witness :
    Ex.exAero.set_profile 1 = Ex.exAero ∧
    Ex.exAero.apply_preset 1 = Ex.exAero ∧
    Ex.exAero.set_block 0 2 Cfg.BlockState.relax = Ex.exAero ∧
    Ex.exAero.set_node 0 4 false = Ex.exAero :=
  ⟨(C9_out_of_range_noop Ex.exAero 0).1 1 (by decide),
    (C9_out_of_range_noop Ex.exAero 0).2.1 1 (by decide),
    (C9_out_of_range_noop Ex.exAero 0).2.2.1 2 Cfg.BlockState.relax (by decide),
    (C9_out_of_range_noop Ex.exAero 0).2.2.2 4 false (by decide)⟩

/-- C3: `node_state` under the active profile's condition — `Fixed{state}`
returns `state`; `Direct` returns the effective overlay value (pending if
present, else current); `Router` returns true iff some block of
`node_blocks[i]` has effective state Clear or `Route((a,b))` with `a ≠ i`
and `b ≠ i` (a Relax block contributes false, being in neither
disjunct). -/
theorem C3_node_state (a : Clt.Aerodrome) (node : Nat) :
    (∀ st, a.activeProfile.nodes.getD node default =
        Cfg.NodeCondition.fixed st → a.node_state node = st) ∧
    (∀ r, a.activeProfile.nodes.getD node default =
        Cfg.NodeCondition.direct r →
        a.node_state node =
          (a.nodes.getD node default).pending.getD
            (a.nodes.getD node default).current) ∧
    (a.activeProfile.nodes.getD node default = Cfg.NodeCondition.router →
        (a.node_state node = true ↔
          ∃ b ∈ [(a.node_blocks.getD node (0, 0)).1,
                 (a.node_blocks.getD node (0, 0)).2],
            (a.blocks.getD b default).state = Cfg.BlockState.clear ∨
            ∃ x y,
              (a.blocks.getD b default).state = Cfg.BlockState.route (x, y) ∧
                x ≠ node ∧ y ≠ node)) := by
  refine ⟨?_, ?_, ?_⟩
  · intro st h
    unfold Clt.Aerodrome.node_state
    rw [h]
  · intro r h
    unfold Clt.Aerodrome.node_state
    rw [h]
    rfl
  · intro h
    unfold Clt.Aerodrome.node_state
    rw [h]
    simp only [List.any_eq_true]
    constructor
    · rintro ⟨b, hb, hp⟩
      refine ⟨b, hb, ?_⟩
      revert hp
      cases hst : (a.blocks.getD b default).state with
      | clear => exact fun _ => Or.inl rfl
      | relax => simp
      | route q =>
          intro hp
          simp only [Bool.and_eq_true, decide_eq_true_eq] at hp
          exact Or.inr ⟨q.1, q.2, rfl, hp.1, hp.2⟩
    · rintro ⟨b, hb, hor⟩
      refine ⟨b, hb, ?_⟩
      rcases hor with hclear | ⟨x, y, hroute, hx, hy⟩
      · rw [hclear]
      · rw [hroute]
        simp [hx, hy]

/-- Concrete instance of C3: one node of each condition kind of the sample
aerodrome. -/
theorem C3_node_state_witness :
    Ex.exAero.node_state 3 = true ∧
    Ex.exAero.node_state 1 =
      (Ex.exAero.nodes.getD 1 default).pending.getD
        (Ex.exAero.nodes.getD 1 default).current ∧
    (Ex.exAero.node_state 0 = true ↔
      ∃ b ∈ [(Ex.exAero.node_blocks.getD 0 (0, 0)).1,
             (Ex.exAero.node_blocks.getD 0 (0, 0)).2],
        (Ex.exAero.blocks.getD b default).state = Cfg.BlockState.clear ∨
        ∃ x y,
          (Ex.exAero.blocks.getD b default).state = Cfg.BlockState.route (x, y) ∧
            x ≠ 0 ∧ y ≠ 0) :=
  ⟨(C3_node_state Ex.exAero 3).1 true (by decide),
    (C3_node_state Ex.exAero 1).2.1 (Cfg.ResetCondition.timeSecs 5) (by decide),
    (C3_node_state Ex.exAero 0).2.2 (by decide)⟩

/-- C4: `route_candidates` of a block in effective state `Route((a,b))`
only returns pairs whose first component is a child of `a` or `a` itself,
whose second is a child of `b` or `b` itself, and whose unordered pair is
not among the block's `non_routes`; when neither endpoint has children and
`(a,b)` is not a non-route, the candidates are exactly `[(a,b)]`; a block
not in Route state has no candidates. -/
theorem C4_route_candidates (a : Clt.Aerodrome) (block : Nat) :
    (∀ ap bp,
        (a.blocks.getD block default).state = Cfg.BlockState.route (ap, bp) →
        ∀ q ∈ a.route_candidates block,
          (q.1 ∈ (Clt.nmapLookup a.children ap).getD [] ∨ q.1 = ap) ∧
          (q.2 ∈ (Clt.nmapLookup a.children bp).getD [] ∨ q.2 = bp) ∧
          (q.1, q.2) ∉ (a.config.blocks.getD block default).non_routes ∧
          (q.2, q.1) ∉ (a.config.blocks.getD block default).non_routes) ∧
    (∀ ap bp,
        (a.blocks.getD block default).state = Cfg.BlockState.route (ap, bp) →
        Clt.nmapLookup a.children ap = none →
        Clt.nmapLookup a.children bp = none →
        (ap, bp) ∉ (a.config.blocks.getD block default).non_routes →
        (bp, ap) ∉ (a.config.blocks.getD block default).non_routes →
        a.route_candidates block = [(ap, bp)]) ∧
    ((a.blocks.getD block default).state = Cfg.BlockState.clear ∨
        (a.blocks.getD block default).state = Cfg.BlockState.relax →
      a.route_candidates block = []) := by
  refine ⟨?_, ?_, ?_⟩
  · intro ap bp h q hq
    unfold Clt.Aerodrome.route_candidates at hq
    rw [h] at hq
    simp only [List.mem_flatMap, List.mem_map, List.mem_filter,
      decide_eq_true_eq] at hq
    obtain ⟨x, hx, y, ⟨hy, hnr⟩, rfl⟩ := hq
    push_neg at hnr
    refine ⟨?_, ?_, hnr.1, hnr.2⟩
    · cases hc : Clt.nmapLookup a.children ap with
      | none =>
          rw [hc] at hx
          simp at hx
          exact Or.inr hx
      | some l =>
          rw [hc] at hx
          simp only [Option.getD_some] at hx ⊢
          exact Or.inl hx
    · cases hc : Clt.nmapLookup a.children bp with
      | none =>
          rw [hc] at hy
          simp at hy
          exact Or.inr hy
      | some l =>
          rw [hc] at hy
          simp only [Option.getD_some] at hy ⊢
          exact Or.inl hy
  · intro ap bp h hca hcb hn1 hn2
    simp only [Clt.Aerodrome.route_candidates, h, hca, hcb, Option.getD_none]
    simp only [List.getD_eq_getElem?_getD] at hn1 hn2
    simp [hn1, hn2]
  · intro h
    rcases h with h | h <;>
      simp only [List.getD_eq_getElem?_getD] at h <;>
      simp [Clt.Aerodrome.route_candidates, h]

/-- Concrete instance of C4 on the sample aerodrome with block 0 routed
`A → F`. -/
theorem C4_route_candidates_witness :
    let a :=
      { Ex.exAero with
        blocks := Ex.exAero.blocks.set 0
          { current := Cfg.BlockState.route (0, 1), pending := none } }
    a.route_candidates 0 = [(0, 1)] ∧ a.route_candidates 1 = [] :=
  ⟨(C4_route_candidates _ 0).2.1 0 1 (by decide) (by decide) (by decide)
      (by decide) (by decide),
    (C4_route_candidates _ 1).2.2 (Or.inl (by decide))⟩

theorem patchNodeStep_stable (a : Clt.Aerodrome) (e : String × Bool) :
    (Clt.Aerodrome.patchNodeStep a e).node_ids = a.node_ids ∧
    (Clt.Aerodrome.patchNodeStep a e).block_ids = a.block_ids ∧
    (Clt.Aerodrome.patchNodeStep a e).blocks = a.blocks ∧
    (Clt.Aerodrome.patchNodeStep a e).block_timers = a.block_timers ∧
    (Clt.Aerodrome.patchNodeStep a e).config = a.config ∧
    (Clt.Aerodrome.patchNodeStep a e).nodes.length = a.nodes.length := by
  cases hl : smapLookup a.node_ids e.1 with
  | none => simp [Clt.Aerodrome.patchNodeStep, hl]
  | some i =>
      simp only [Clt.Aerodrome.patchNodeStep, hl]
      split <;> simp

theorem patchNodeStep_other (a : Clt.Aerodrome) (e : String × Bool) (i : Nat)
    (h : smapLookup a.node_ids e.1 ≠ some i) :
    (Clt.Aerodrome.patchNodeStep a e).nodes[i]? = a.nodes[i]? ∧
    (Clt.Aerodrome.patchNodeStep a e).node_timers.filter (fun t => t.1 = i) =
      a.node_timers.filter (fun t => t.1 = i) := by
  cases hl : smapLookup a.node_ids e.1 with
  | none => simp [Clt.Aerodrome.patchNodeStep, hl]
  | some j =>
      have hij : j ≠ i := fun hh => h (by rw [hl, hh])
      simp only [Clt.Aerodrome.patchNodeStep, hl]
      split
      · exact ⟨List.getElem?_set_ne (fun hh => hij hh), rfl⟩
      · refine ⟨List.getElem?_set_ne (fun hh => hij hh), ?_⟩
        rw [List.filter_filter]
        apply List.filter_congr
        intro t _
        by_cases ht : t.1 = i
        · simp [ht, Ne.symm hij]
        · simp [ht]

theorem patchNodeStep_self (a : Clt.Aerodrome) (id : String) (st : Bool)
    (i : Nat) (hid : smapLookup a.node_ids id = some i)
    (hlt : i < a.nodes.length) :
    (Clt.Aerodrome.patchNodeStep a (id, st)).nodes[i]? =
      some { current := st
             pending := if (a.nodes.getD i default).pending = some st
               then none else (a.nodes.getD i default).pending } ∧
    ((a.nodes.getD i default).pending = some st →
      (Clt.Aerodrome.patchNodeStep a (id, st)).node_timers = a.node_timers) ∧
    ((a.nodes.getD i default).pending ≠ some st →
      (Clt.Aerodrome.patchNodeStep a (id, st)).node_timers.filter
          (fun t => t.1 = i) = []) := by
  simp only [Clt.Aerodrome.patchNodeStep, hid]
  split
  · next hpend =>
      refine ⟨?_, fun _ => rfl, fun hne => absurd hpend hne⟩
      rw [List.getElem?_set_self hlt]
  · next hpend =>
      refine ⟨?_, fun heq => absurd heq hpend, fun _ => ?_⟩
      · rw [List.getElem?_set_self hlt]
      · rw [List.filter_filter]
        apply List.filter_eq_nil_iff.2
        intro t _
        by_cases ht : t.1 = i <;> simp [ht]

theorem foldNodes_stable (entries : List (String × Bool)) :
    ∀ a : Clt.Aerodrome,
      (entries.foldl Clt.Aerodrome.patchNodeStep a).node_ids = a.node_ids ∧
      (entries.foldl Clt.Aerodrome.patchNodeStep a).block_ids = a.block_ids ∧
      (entries.foldl Clt.Aerodrome.patchNodeStep a).blocks = a.blocks ∧
      (entries.foldl Clt.Aerodrome.patchNodeStep a).block_timers =
        a.block_timers ∧
      (entries.foldl Clt.Aerodrome.patchNodeStep a).config = a.config ∧
      (entries.foldl Clt.Aerodrome.patchNodeStep a).nodes.length =
        a.nodes.length := by
  induction entries with
  | nil => intro a; exact ⟨rfl, rfl, rfl, rfl, rfl, rfl⟩
  | cons e entries ih =>
      intro a
      simp only [List.foldl_cons]
      have h1 := patchNodeStep_stable a e
      have h2 := ih (Clt.Aerodrome.patchNodeStep a e)
      exact ⟨h2.1.trans h1.1, h2.2.1.trans h1.2.1, h2.2.2.1.trans h1.2.2.1,
        h2.2.2.2.1.trans h1.2.2.2.1, h2.2.2.2.2.1.trans h1.2.2.2.2.1,
        h2.2.2.2.2.2.trans h1.2.2.2.2.2⟩

theorem foldNodes_untouched (entries : List (String × Bool)) :
    ∀ (a : Clt.Aerodrome) (i : Nat),
      (∀ e ∈ entries, smapLookup a.node_ids e.1 ≠ some i) →
      (entries.foldl Clt.Aerodrome.patchNodeStep a).nodes[i]? = a.nodes[i]? ∧
      (entries.foldl Clt.Aerodrome.patchNodeStep a).node_timers.filter
          (fun t => t.1 = i) =
        a.node_timers.filter (fun t => t.1 = i) := by
  induction entries with
  | nil => intro a i _; exact ⟨rfl, rfl⟩
  | cons e entries ih =>
      intro a i h
      simp only [List.foldl_cons]
      have hstep := patchNodeStep_other a e i (h e (by simp))
      have hids : (Clt.Aerodrome.patchNodeStep a e).node_ids = a.node_ids :=
        (patchNodeStep_stable a e).1
      have hrest := ih (Clt.Aerodrome.patchNodeStep a e) i (by
        intro e' he'
        rw [hids]
        exact h e' (List.mem_cons_of_mem _ he'))
      exact ⟨hrest.1.trans hstep.1, hrest.2.trans hstep.2⟩

theorem foldNodes_mem_spec (entries : List (String × Bool)) :
    ∀ (a : Clt.Aerodrome) (id : String) (st : Bool) (i : Nat),
      (entries.map Prod.fst).Nodup →
      (∀ s s' j, smapLookup a.node_ids s = some j →
          smapLookup a.node_ids s' = some j → s = s') →
      (id, st) ∈ entries →
      smapLookup a.node_ids id = some i →
      i < a.nodes.length →
      (entries.foldl Clt.Aerodrome.patchNodeStep a).nodes[i]? =
          some { current := st
                 pending := if (a.nodes.getD i default).pending = some st
                   then none else (a.nodes.getD i default).pending } ∧
      ((a.nodes.getD i default).pending = some st →
          (entries.foldl Clt.Aerodrome.patchNodeStep a).node_timers.filter
              (fun t => t.1 = i) =
            a.node_timers.filter (fun t => t.1 = i)) ∧
      ((a.nodes.getD i default).pending ≠ some st →
          (entries.foldl Clt.Aerodrome.patchNodeStep a).node_timers.filter
              (fun t => t.1 = i) = []) := by
  induction entries with
  | nil => intro a id st i _ _ hmem; cases hmem
  | cons e entries ih =>
      intro a id st i hnodup hinj hmem hid hlt
      simp only [List.foldl_cons]
      have hids : (Clt.Aerodrome.patchNodeStep a e).node_ids = a.node_ids :=
        (patchNodeStep_stable a e).1
      rcases List.mem_cons.1 hmem with heq | hmem'
      · have he : e = (id, st) := heq.symm
        subst he
        have hself := patchNodeStep_self a id st i hid hlt
        have hunt := foldNodes_untouched entries
          (Clt.Aerodrome.patchNodeStep a (id, st)) i (by
            intro e' he'
            rw [hids]
            intro hl'
            have : e'.1 = id := hinj e'.1 id i hl' hid
            have : id ∈ entries.map Prod.fst := by
              rw [← this]
              exact List.mem_map_of_mem Prod.fst he'
            exact (List.nodup_cons.1 hnodup).1 this
          )
        exact ⟨hunt.1.trans hself.1,
          fun heq => hunt.2.trans (by rw [hself.2.1 heq]),
          fun hne => hunt.2.trans (hself.2.2 hne)⟩
      · have hkid : id ∈ entries.map Prod.fst :=
          List.mem_map_of_mem Prod.fst hmem'
        have he1 : e.1 ≠ id := fun hh =>
          (List.nodup_cons.1 hnodup).1 (hh ▸ hkid)
        have hstep := patchNodeStep_other a e i (by
          intro hl'
          exact he1 (hinj e.1 id i hl' hid))
        have hgetD : (Clt.Aerodrome.patchNodeStep a e).nodes.getD i default =
            a.nodes.getD i default := by
          rw [List.getD_eq_getElem?_getD, hstep.1, ← List.getD_eq_getElem?_getD]
        have hlen : (Clt.Aerodrome.patchNodeStep a e).nodes.length =
            a.nodes.length := (patchNodeStep_stable a e).2.2.2.2.2
        have hrest := ih (Clt.Aerodrome.patchNodeStep a e) id st i
          (List.nodup_cons.1 hnodup).2
          (by rw [hids]; exact hinj)
          hmem'
          (by rw [hids]; exact hid)
          (by rw [hlen]; exact hlt)
        rw [hgetD] at hrest
        exact ⟨hrest.1, fun heq => (hrest.2.1 heq).trans hstep.2,
          fun hne => hrest.2.2 hne⟩

theorem bs_ipc_to_conf_congr (x y : Clt.Aerodrome)
    (h : x.node_ids = y.node_ids) (st : Proto.BlockState) :
    x.bs_ipc_to_conf st = y.bs_ipc_to_conf st := by
  cases st <;> simp [Clt.Aerodrome.bs_ipc_to_conf, h]

theorem patchBlockStep_stable (a : Clt.Aerodrome) (e : String × Proto.BlockState) :
    (Clt.Aerodrome.patchBlockStep a e).node_ids = a.node_ids ∧
    (Clt.Aerodrome.patchBlockStep a e).block_ids = a.block_ids ∧
    (Clt.Aerodrome.patchBlockStep a e).nodes = a.nodes ∧
    (Clt.Aerodrome.patchBlockStep a e).node_timers = a.node_timers ∧
    (Clt.Aerodrome.patchBlockStep a e).config = a.config ∧
    (Clt.Aerodrome.patchBlockStep a e).blocks.length = a.blocks.length := by
  cases hl : smapLookup a.block_ids e.1 with
  | none => simp [Clt.Aerodrome.patchBlockStep, hl]
  | some i =>
      cases hc : a.bs_ipc_to_conf e.2 with
      | none => simp [Clt.Aerodrome.patchBlockStep, hl, hc]
      | some st =>
          simp only [Clt.Aerodrome.patchBlockStep, hl, hc]
          split <;> simp

theorem patchBlockStep_other (a : Clt.Aerodrome) (e : String × Proto.BlockState)
    (i : Nat) (h : smapLookup a.block_ids e.1 ≠ some i) :
    (Clt.Aerodrome.patchBlockStep a e).blocks[i]? = a.blocks[i]? ∧
    (Clt.Aerodrome.patchBlockStep a e).block_timers.filter (fun t => t.1 = i) =
      a.block_timers.filter (fun t => t.1 = i) := by
  cases hl : smapLookup a.block_ids e.1 with
  | none => simp [Clt.Aerodrome.patchBlockStep, hl]
  | some j =>
      have hij : j ≠ i := fun hh => h (by rw [hl, hh])
      cases hc : a.bs_ipc_to_conf e.2 with
      | none => simp [Clt.Aerodrome.patchBlockStep, hl, hc]
      | some st =>
          simp only [Clt.Aerodrome.patchBlockStep, hl, hc]
          split
          · exact ⟨List.getElem?_set_ne (fun hh => hij hh), rfl⟩
          · refine ⟨List.getElem?_set_ne (fun hh => hij hh), ?_⟩
            rw [List.filter_filter]
            apply List.filter_congr
            intro t _
            by_cases ht : t.1 = i
            · simp [ht, Ne.symm hij]
            · simp [ht]

theorem patchBlockStep_self (a : Clt.Aerodrome) (id : String)
    (st : Proto.BlockState) (cst : Cfg.BlockState) (i : Nat)
    (hid : smapLookup a.block_ids id = some i)
    (hconv : a.bs_ipc_to_conf st = some cst) (hlt : i < a.blocks.length) :
    (Clt.Aerodrome.patchBlockStep a (id, st)).blocks[i]? =
      some { current := cst
             pending := if (a.blocks.getD i default).pending = some cst
               then none else (a.blocks.getD i default).pending } ∧
    ((a.blocks.getD i default).pending = some cst →
      (Clt.Aerodrome.patchBlockStep a (id, st)).block_timers =
        a.block_timers) ∧
    ((a.blocks.getD i default).pending ≠ some cst →
      (Clt.Aerodrome.patchBlockStep a (id, st)).block_timers.filter
          (fun t => t.1 = i) = []) := by
  simp only [Clt.Aerodrome.patchBlockStep, hid, hconv]
  split
  · next hpend =>
      refine ⟨?_, fun _ => rfl, fun hne => absurd hpend hne⟩
      rw [List.getElem?_set_self hlt]
  · next hpend =>
      refine ⟨?_, fun heq => absurd heq hpend, fun _ => ?_⟩
      · rw [List.getElem?_set_self hlt]
      · rw [List.filter_filter]
        apply List.filter_eq_nil_iff.2
        intro t _
        by_cases ht : t.1 = i <;> simp [ht]

theorem foldBlocks_stable (entries : List (String × Proto.BlockState)) :
    ∀ a : Clt.Aerodrome,
      (entries.foldl Clt.Aerodrome.patchBlockStep a).node_ids = a.node_ids ∧
      (entries.foldl Clt.Aerodrome.patchBlockStep a).block_ids = a.block_ids ∧
      (entries.foldl Clt.Aerodrome.patchBlockStep a).nodes = a.nodes ∧
      (entries.foldl Clt.Aerodrome.patchBlockStep a).node_timers =
        a.node_timers ∧
      (entries.foldl Clt.Aerodrome.patchBlockStep a).config = a.config ∧
      (entries.foldl Clt.Aerodrome.patchBlockStep a).blocks.length =
        a.blocks.length := by
  induction entries with
  | nil => intro a; exact ⟨rfl, rfl, rfl, rfl, rfl, rfl⟩
  | cons e entries ih =>
      intro a
      simp only [List.foldl_cons]
      have h1 := patchBlockStep_stable a e
      have h2 := ih (Clt.Aerodrome.patchBlockStep a e)
      exact ⟨h2.1.trans h1.1, h2.2.1.trans h1.2.1, h2.2.2.1.trans h1.2.2.1,
        h2.2.2.2.1.trans h1.2.2.2.1, h2.2.2.2.2.1.trans h1.2.2.2.2.1,
        h2.2.2.2.2.2.trans h1.2.2.2.2.2⟩

theorem foldBlocks_untouched (entries : List (String × Proto.BlockState)) :
    ∀ (a : Clt.Aerodrome) (i : Nat),
      (∀ e ∈ entries, smapLookup a.block_ids e.1 ≠ some i) →
      (entries.foldl Clt.Aerodrome.patchBlockStep a).blocks[i]? =
          a.blocks[i]? ∧
      (entries.foldl Clt.Aerodrome.patchBlockStep a).block_timers.filter
          (fun t => t.1 = i) =
        a.block_timers.filter (fun t => t.1 = i) := by
  induction entries with
  | nil => intro a i _; exact ⟨rfl, rfl⟩
  | cons e entries ih =>
      intro a i h
      simp only [List.foldl_cons]
      have hstep := patchBlockStep_other a e i (h e (by simp))
      have hids : (Clt.Aerodrome.patchBlockStep a e).block_ids = a.block_ids :=
        (patchBlockStep_stable a e).2.1
      have hrest := ih (Clt.Aerodrome.patchBlockStep a e) i (by
        intro e' he'
        rw [hids]
        exact h e' (List.mem_cons_of_mem _ he'))
      exact ⟨hrest.1.trans hstep.1, hrest.2.trans hstep.2⟩

theorem foldBlocks_mem_spec (entries : List (String × Proto.BlockState)) :
    ∀ (a : Clt.Aerodrome) (id : String) (st : Proto.BlockState)
      (cst : Cfg.BlockState) (i : Nat),
      (entries.map Prod.fst).Nodup →
      (∀ s s' j, smapLookup a.block_ids s = some j →
          smapLookup a.block_ids s' = some j → s = s') →
      (id, st) ∈ entries →
      smapLookup a.block_ids id = some i →
      a.bs_ipc_to_conf st = some cst →
      i < a.blocks.length →
      (entries.foldl Clt.Aerodrome.patchBlockStep a).blocks[i]? =
          some { current := cst
                 pending := if (a.blocks.getD i default).pending = some cst
                   then none else (a.blocks.getD i default).pending } ∧
      ((a.blocks.getD i default).pending = some cst →
          (entries.foldl Clt.Aerodrome.patchBlockStep a).block_timers.filter
              (fun t => t.1 = i) =
            a.block_timers.filter (fun t => t.1 = i)) ∧
      ((a.blocks.getD i default).pending ≠ some cst →
          (entries.foldl Clt.Aerodrome.patchBlockStep a).block_timers.filter
              (fun t => t.1 = i) = []) := by
  induction entries with
  | nil => intro a id st cst i _ _ hmem; cases hmem
  | cons e entries ih =>
      intro a id st cst i hnodup hinj hmem hid hconv hlt
      simp only [List.foldl_cons]
      have hids : (Clt.Aerodrome.patchBlockStep a e).block_ids = a.block_ids :=
        (patchBlockStep_stable a e).2.1
      have hnids : (Clt.Aerodrome.patchBlockStep a e).node_ids = a.node_ids :=
        (patchBlockStep_stable a e).1
      rcases List.mem_cons.1 hmem with heq | hmem'
      · have he : e = (id, st) := heq.symm
        subst he
        have hself := patchBlockStep_self a id st cst i hid hconv hlt
        have hunt := foldBlocks_untouched entries
          (Clt.Aerodrome.patchBlockStep a (id, st)) i (by
            intro e' he'
            rw [hids]
            intro hl'
            have : e'.1 = id := hinj e'.1 id i hl' hid
            have : id ∈ entries.map Prod.fst := by
              rw [← this]
              exact List.mem_map_of_mem Prod.fst he'
            exact (List.nodup_cons.1 hnodup).1 this)
        exact ⟨hunt.1.trans hself.1,
          fun heq => hunt.2.trans (by rw [hself.2.1 heq]),
          fun hne => hunt.2.trans (hself.2.2 hne)⟩
      · have hkid : id ∈ entries.map Prod.fst :=
          List.mem_map_of_mem Prod.fst hmem'
        have he1 : e.1 ≠ id := fun hh =>
          (List.nodup_cons.1 hnodup).1 (hh ▸ hkid)
        have hstep := patchBlockStep_other a e i (by
          intro hl'
          exact he1 (hinj e.1 id i hl' hid))
        have hgetD : (Clt.Aerodrome.patchBlockStep a e).blocks.getD i default =
            a.blocks.getD i default := by
          rw [List.getD_eq_getElem?_getD, hstep.1, ← List.getD_eq_getElem?_getD]
        have hlen : (Clt.Aerodrome.patchBlockStep a e).blocks.length =
            a.blocks.length := (patchBlockStep_stable a e).2.2.2.2.2
        have hrest := ih (Clt.Aerodrome.patchBlockStep a e) id st cst i
          (List.nodup_cons.1 hnodup).2
          (by rw [hids]; exact hinj)
          hmem'
          (by rw [hids]; exact hid)
          (by rw [bs_ipc_to_conf_congr _ a hnids]; exact hconv)
          (by rw [hlen]; exact hlt)
        rw [hgetD] at hrest
        exact ⟨hrest.1, fun heq => (hrest.2.1 heq).trans hstep.2,
          fun hne => hrest.2.2 hne⟩

theorem profileStep_stable (a : Clt.Aerodrome) (p : Proto.Patch) :
    (a.profileStep p).nodes = a.nodes ∧
    (a.profileStep p).blocks = a.blocks ∧
    (a.profileStep p).node_ids = a.node_ids ∧
    (a.profileStep p).block_ids = a.block_ids ∧
    (a.profileStep p).config = a.config := by
  cases hp : p.profile with
  | none => simp [Clt.Aerodrome.profileStep, hp]
  | some prof =>
      cases hf : a.config.profiles.findIdx? (fun q => q.id = prof) with
      | none => simp [Clt.Aerodrome.profileStep, hp, hf]
      | some i => simp [Clt.Aerodrome.profileStep, hp, hf]

theorem smapLookup_mem_values {V : Type} (m : SMap V) (s : String) (v : V)
    (h : smapLookup m s = some v) : v ∈ m.map Prod.snd := by
  induction m with
  | nil => cases h
  | cons e m ih =>
      rw [smapLookup] at h
      split at h
      · cases h
        exact List.mem_cons_self _ _
      · exact List.mem_cons_of_mem _ (ih h)

theorem smapLookup_inj {V : Type} (m : SMap V)
    (hv : (m.map Prod.snd).Nodup) (s s' : String) (j : V)
    (h1 : smapLookup m s = some j) (h2 : smapLookup m s' = some j) :
    s = s' := by
  induction m with
  | nil => cases h1
  | cons e m ih =>
      simp only [List.map_cons] at hv
      rw [smapLookup] at h1 h2
      by_cases hs : e.1 = s <;> by_cases hs' : e.1 = s'
      · rw [← hs, ← hs']
      · rw [if_pos hs] at h1
        rw [if_neg hs'] at h2
        cases h1
        exact absurd (smapLookup_mem_values m s' e.2 h2)
          (List.nodup_cons.1 hv).1
      · rw [if_neg hs] at h1
        rw [if_pos hs'] at h2
        cases h2
        exact absurd (smapLookup_mem_values m s e.2 h1)
          (List.nodup_cons.1 hv).1
      · rw [if_neg hs] at h1
        rw [if_neg hs'] at h2
        exact ih (List.nodup_cons.1 hv).2 h1 h2

/-- C1 (amended): for every inbound patch key naming a known id, the
client `Aerodrome::apply_patch` sets the cell's current value to the
inbound value; when the inbound value equals the pending overlay, the
overlay is cleared and this key cancels no deferred-reset timer — the
cell's timers after the patch are exactly those left by the profile step,
which keeps every timer unless the patch carries a known profile change
(then it clears them all); when the inbound value differs, the pending
overlay is retained unchanged and every deferred-reset timer of that cell
is cancelled. The id maps carry each key and each index once, as the
tables built by `Aerodrome::new` do. -/
theorem C1_apply_patch_overlay (a : Clt.Aerodrome) (p : Proto.Patch)
    (hpn : SMapNodup p.nodes) (hpb : SMapNodup p.blocks)
    (hvn : (a.node_ids.map Prod.snd).Nodup)
    (hvb : (a.block_ids.map Prod.snd).Nodup) :
    (p.profile = none → a.profileStep p = a) ∧
    (((a.profileStep p).node_timers = a.node_timers ∧
        (a.profileStep p).block_timers = a.block_timers) ∨
      ((a.profileStep p).node_timers = [] ∧
        (a.profileStep p).block_timers = [])) ∧
    (∀ id st i, (id, st) ∈ p.nodes → smapLookup a.node_ids id = some i →
        i < a.nodes.length →
        (a.apply_patch p).nodes[i]? =
          some { current := st
                 pending := if (a.nodes.getD i default).pending = some st
                   then none else (a.nodes.getD i default).pending } ∧
        ((a.nodes.getD i default).pending = some st →
          (a.apply_patch p).node_timers.filter (fun t => t.1 = i) =
            (a.profileStep p).node_timers.filter (fun t => t.1 = i)) ∧
        ((a.nodes.getD i default).pending ≠ some st →
          ∀ t ∈ (a.apply_patch p).node_timers, t.1 ≠ i)) ∧
    (∀ id st cst i, (id, st) ∈ p.blocks →
        smapLookup a.block_ids id = some i →
        a.bs_ipc_to_conf st = some cst → i < a.blocks.length →
        (a.apply_patch p).blocks[i]? =
          some { current := cst
                 pending := if (a.blocks.getD i default).pending = some cst
                   then none else (a.blocks.getD i default).pending } ∧
        ((a.blocks.getD i default).pending = some cst →
          (a.apply_patch p).block_timers.filter (fun t => t.1 = i) =
            (a.profileStep p).block_timers.filter (fun t => t.1 = i)) ∧
        ((a.blocks.getD i default).pending ≠ some cst →
          ∀ t ∈ (a.apply_patch p).block_timers, t.1 ≠ i)) := by
  have hinjN : ∀ s s' j, smapLookup a.node_ids s = some j →
      smapLookup a.node_ids s' = some j → s = s' :=
    fun s s' j h1 h2 => smapLookup_inj a.node_ids hvn s s' j h1 h2
  have hinjB : ∀ s s' j, smapLookup a.block_ids s = some j →
      smapLookup a.block_ids s' = some j → s = s' :=
    fun s s' j h1 h2 => smapLookup_inj a.block_ids hvb s s' j h1 h2
  simp only [Clt.Aerodrome.apply_patch]
  refine ⟨?_, ?_, ?_, ?_⟩
  · intro h
    simp [Clt.Aerodrome.profileStep, h]
  · cases hp : p.profile with
    | none => exact Or.inl (by simp [Clt.Aerodrome.profileStep, hp])
    | some prof =>
        cases hf : a.config.profiles.findIdx? (fun q => q.id = prof) with
        | none =>
            exact Or.inl (by simp [Clt.Aerodrome.profileStep, hp, hf])
        | some j =>
            exact Or.inr (by simp [Clt.Aerodrome.profileStep, hp, hf])
  · intro id st i hmem hid hlt
    have hps := profileStep_stable a p
    have hspec := foldNodes_mem_spec p.nodes (a.profileStep p) id st i hpn
      (by rw [hps.2.2.1]; exact hinjN) hmem
      (by rw [hps.2.2.1]; exact hid) (by rw [hps.1]; exact hlt)
    rw [hps.1] at hspec
    have hbs := foldBlocks_stable p.blocks
      (p.nodes.foldl Clt.Aerodrome.patchNodeStep (a.profileStep p))
    refine ⟨?_, ?_, ?_⟩
    · rw [hbs.2.2.1]
      exact hspec.1
    · intro heq
      rw [hbs.2.2.2.1]
      exact hspec.2.1 heq
    · intro hne t ht
      rw [hbs.2.2.2.1] at ht
      have hfil := hspec.2.2 hne
      have := List.filter_eq_nil_iff.1 hfil t ht
      simpa using this
  · intro id st cst i hmem hid hconv hlt
    have hps := profileStep_stable a p
    have hns := foldNodes_stable p.nodes (a.profileStep p)
    have hbids : (p.nodes.foldl Clt.Aerodrome.patchNodeStep
        (a.profileStep p)).block_ids = a.block_ids := by
      rw [hns.2.1, hps.2.2.2.1]
    have hnids : (p.nodes.foldl Clt.Aerodrome.patchNodeStep
        (a.profileStep p)).node_ids = a.node_ids := by
      rw [hns.1, hps.2.2.1]
    have hblocks : (p.nodes.foldl Clt.Aerodrome.patchNodeStep
        (a.profileStep p)).blocks = a.blocks := by
      rw [hns.2.2.1, hps.2.1]
    have hbt : (p.nodes.foldl Clt.Aerodrome.patchNodeStep
        (a.profileStep p)).block_timers = (a.profileStep p).block_timers :=
      hns.2.2.2.1
    have hspec := foldBlocks_mem_spec p.blocks
      (p.nodes.foldl Clt.Aerodrome.patchNodeStep (a.profileStep p))
      id st cst i hpb
      (by rw [hbids]; exact hinjB) hmem (by rw [hbids]; exact hid)
      (by rw [bs_ipc_to_conf_congr _ a hnids]; exact hconv)
      (by rw [hblocks]; exact hlt)
    rw [hblocks] at hspec
    refine ⟨hspec.1, ?_, ?_⟩
    · intro heq
      rw [hspec.2.1 heq, hbt]
    · intro hne t ht
      have hfil := hspec.2.2 hne
      have := List.filter_eq_nil_iff.1 hfil t ht
      simpa using this

/-- Counterexample to C1 as stated: on a Direct node with pending
`some true`, an inbound patch carrying `false` (supersession) leaves the
pending overlay in place instead of clearing it; and with pending
`some false` confirmed by an inbound `false`, the deferred-reset timer of
the node is NOT cancelled. -/
theorem C1_counterexample :
    ((({ Ex.exAero with
          nodes := Ex.exAero.nodes.set 1
            { current := false, pending := some true }
          node_timers := [(1, 99)] } : Clt.Aerodrome).apply_patch
        { profile := none, nodes := [("F", false)], blocks := [] }).nodes.getD
        1 default).pending = some true ∧
    (({ Ex.exAero with
          nodes := Ex.exAero.nodes.set 1
            { current := true, pending := some false }
          node_timers := [(1, 99)] } : Clt.Aerodrome).apply_patch
        { profile := none, nodes := [("F", false)], blocks := [] }).node_timers
      = [(1, 99)] := by
  decide

/-- Concrete instance of the amended C1: confirmation clears the pending
overlay; supersession keeps it and cancels the node's timer. -/
theorem C1_apply_patch_overlay_witness :
    (({ Ex.exAero with
          nodes := Ex.exAero.nodes.set 1
            { current := false, pending := some true }
          node_timers := [(1, 99)] } : Clt.Aerodrome).apply_patch
        { profile := none, nodes := [("F", false)], blocks := [] }).nodes[1]? =
      some { current := false, pending := some true } ∧
    (∀ t ∈ (({ Ex.exAero with
          nodes := Ex.exAero.nodes.set 1
            { current := false, pending := some true }
          node_timers := [(1, 99)] } : Clt.Aerodrome).apply_patch
        { profile := none, nodes := [("F", false)], blocks := [] }).node_timers,
      t.1 ≠ 1) ∧
    (({ Ex.exAero with
          nodes := Ex.exAero.nodes.set 1
            { current := true, pending := some false }
          node_timers := [(1, 99)] } : Clt.Aerodrome).apply_patch
        { profile := none, nodes := [("F", false)], blocks := [] }).node_timers.filter
        (fun t => t.1 = 1) =
      (({ Ex.exAero with
          nodes := Ex.exAero.nodes.set 1
            { current := true, pending := some false }
          node_timers := [(1, 99)] } : Clt.Aerodrome).profileStep
        { profile := none, nodes := [("F", false)], blocks := [] }).node_timers.filter
        (fun t => t.1 = 1) := by
  have h := (C1_apply_patch_overlay
    { Ex.exAero with
      nodes := Ex.exAero.nodes.set 1 { current := false, pending := some true }
      node_timers := [(1, 99)] }
    { profile := none, nodes := [("F", false)], blocks := [] }
    (by decide) (by decide) (by decide) (by decide)).2.2.1
    "F" false 1 (by decide) (by decide) (by decide)
  have h2 := (C1_apply_patch_overlay
    { Ex.exAero with
      nodes := Ex.exAero.nodes.set 1 { current := true, pending := some false }
      node_timers := [(1, 99)] }
    { profile := none, nodes := [("F", false)], blocks := [] }
    (by decide) (by decide) (by decide) (by decide)).2.2.1
    "F" false 1 (by decide) (by decide) (by decide)
  exact ⟨by rw [h.1]; decide, h.2.2 (by decide), h2.2.1 (by decide)⟩

theorem jlookup_find? (t : List (String × Srv.Json)) (k : String) :
    Srv.jlookup t k = (t.find? (fun e => e.1 = k)).map Prod.snd := by
  induction t with
  | nil => rfl
  | cons e t ih =>
      rw [Srv.jlookup, List.find?_cons]
      by_cases he : e.1 = k
      · simp [he]
      · rw [if_neg he, ih]
        have hd : (decide (e.1 = k)) = false := by simp [he]
        rw [hd]

theorem jlookup_replaceValue_self (t : List (String × Srv.Json)) (k : String)
    (v : Srv.Json) : Srv.jlookup (Srv.replaceValue t k v) k = some v := by
  induction t with
  | nil => simp [Srv.replaceValue, Srv.jlookup]
  | cons e t ih =>
      rw [Srv.replaceValue]
      by_cases he : e.1 = k
      · rw [if_pos he, Srv.jlookup, if_pos he]
      · rw [if_neg he, Srv.jlookup, if_neg he]
        exact ih

theorem jlookup_replaceValue_ne (t : List (String × Srv.Json)) (k k' : String)
    (v : Srv.Json) (h : k' ≠ k) :
    Srv.jlookup (Srv.replaceValue t k v) k' = Srv.jlookup t k' := by
  induction t with
  | nil =>
      simp only [Srv.replaceValue, Srv.jlookup]
      rw [if_neg (fun hh : k = k' => h hh.symm)]
  | cons e t ih =>
      rw [Srv.replaceValue]
      by_cases he : e.1 = k
      · rw [if_pos he, Srv.jlookup, Srv.jlookup]
        have : ¬ (e.1 = k') := by rw [he]; exact fun hh => h hh.symm
        rw [if_neg this, if_neg this]
      · rw [if_neg he, Srv.jlookup, Srv.jlookup]
        by_cases he' : e.1 = k'
        · rw [if_pos he', if_pos he']
        · rw [if_neg he', if_neg he']
          exact ih

theorem replaceValue_keys_sub (t : List (String × Srv.Json)) (k s : String)
    (v : Srv.Json) (h : s ∈ (Srv.replaceValue t k v).map Prod.fst) :
    s ∈ t.map Prod.fst ∨ s = k := by
  induction t with
  | nil =>
      simp [Srv.replaceValue] at h
      exact Or.inr h
  | cons e t ih =>
      rw [Srv.replaceValue] at h
      by_cases he : e.1 = k
      · rw [if_pos he] at h
        simp only [List.map_cons, List.mem_cons] at h ⊢
        rcases h with h | h
        · exact Or.inl (Or.inl h)
        · exact Or.inl (Or.inr h)
      · rw [if_neg he] at h
        simp only [List.map_cons, List.mem_cons] at h ⊢
        rcases h with h | h
        · exact Or.inl (Or.inl h)
        · rcases ih h with h2 | h2
          · exact Or.inl (Or.inr h2)
          · exact Or.inr h2

theorem replaceValue_nodup (t : List (String × Srv.Json)) (k : String)
    (v : Srv.Json) (h : (t.map Prod.fst).Nodup) :
    ((Srv.replaceValue t k v).map Prod.fst).Nodup := by
  induction t with
  | nil => simp [Srv.replaceValue]
  | cons e t ih =>
      rw [Srv.replaceValue]
      simp only [List.map_cons, List.nodup_cons] at h
      by_cases he : e.1 = k
      · rw [if_pos he]
        simp only [List.map_cons, List.nodup_cons]
        exact h
      · rw [if_neg he]
        simp only [List.map_cons, List.nodup_cons]
        refine ⟨?_, ih h.2⟩
        intro hmem
        rcases replaceValue_keys_sub t k e.1 v hmem with h2 | h2
        · exact h.1 h2
        · exact he h2

theorem jlookup_append_single (t : List (String × Srv.Json)) (k k' : String)
    (v : Srv.Json) :
    Srv.jlookup (t ++ [(k, v)]) k' =
      (Srv.jlookup t k').or (if k = k' then some v else none) := by
  induction t with
  | nil =>
      simp only [List.nil_append, Srv.jlookup]
      by_cases h : k = k' <;> simp [h, Option.or]
  | cons e t ih =>
      rw [List.cons_append, Srv.jlookup, Srv.jlookup]
      by_cases he : e.1 = k'
      · rw [if_pos he, if_pos he]
        rfl
      · rw [if_neg he, if_neg he]
        exact ih

theorem jlookup_eq_none_of_not_mem (t : List (String × Srv.Json)) (k : String)
    (h : k ∉ t.map Prod.fst) : Srv.jlookup t k = none := by
  induction t with
  | nil => rfl
  | cons e t ih =>
      simp only [List.map_cons, List.mem_cons] at h
      push_neg at h
      rw [Srv.jlookup, if_neg (fun hh : e.1 = k => h.1 hh.symm)]
      exact ih h.2

theorem jlookup_mergeList (s : List (String × Srv.Json)) :
    ∀ (t : List (String × Srv.Json)), (t.map Prod.fst).Nodup →
      (s.map Prod.fst).Nodup → ∀ k,
      Srv.jlookup (Srv.Json.mergeList t s) k =
        match Srv.jlookup s k with
        | none => Srv.jlookup t k
        | some v =>
            match Srv.jlookup t k with
            | none => some v
            | some w => some (Srv.Json.merge w v) := by
  induction s with
  | nil =>
      intro t _ _ k
      rw [Srv.Json.mergeList]
      rfl
  | cons e s ih =>
      intro t ht hs k
      obtain ⟨k₀, v₀⟩ := e
      simp only [List.map_cons, List.nodup_cons] at hs
      rw [Srv.Json.mergeList]
      cases hf : t.find? (fun e => e.1 = k₀) with
      | some e₀ =>
          have hk₀ : e₀.1 = k₀ := by
            have := List.find?_some hf
            simpa using this
          have hlk : Srv.jlookup t k₀ = some e₀.2 := by
            rw [jlookup_find?, hf]
            rfl
          have ht' : ((Srv.replaceValue t k₀
              (Srv.Json.merge e₀.2 v₀)).map Prod.fst).Nodup :=
            replaceValue_nodup t k₀ _ ht
          rw [ih _ ht' hs.2 k]
          by_cases hk : k = k₀
          · subst hk
            have hsk : Srv.jlookup s k = none :=
              jlookup_eq_none_of_not_mem s k hs.1
            rw [hsk, jlookup_replaceValue_self, Srv.jlookup, if_pos rfl, hlk]
          · have : Srv.jlookup (Srv.replaceValue t k₀
                (Srv.Json.merge e₀.2 v₀)) k = Srv.jlookup t k :=
              jlookup_replaceValue_ne t k₀ k _ hk
            rw [this, Srv.jlookup,
              if_neg (fun hh : k₀ = k => hk hh.symm)]
      | none =>
          have hnone : Srv.jlookup t k₀ = none := by
            rw [jlookup_find?, hf]
            rfl
          have hnot : k₀ ∉ t.map Prod.fst := by
            intro hmem
            obtain ⟨e₁, he₁, hke⟩ := List.mem_map.1 hmem
            have := List.find?_eq_none.1 hf e₁ he₁
            simp only [decide_eq_true_eq] at this
            exact this hke
          have ht' : ((t ++ [(k₀, v₀)]).map Prod.fst).Nodup := by
            rw [List.map_append, List.nodup_append]
            refine ⟨ht, by simp, ?_⟩
            intro x hx hx'
            simp only [List.map_cons, List.map_nil, List.mem_singleton] at hx'
            subst hx'
            exact hnot hx
          rw [ih _ ht' hs.2 k]
          by_cases hk : k = k₀
          · subst hk
            have hsk : Srv.jlookup s k = none :=
              jlookup_eq_none_of_not_mem s k hs.1
            rw [hsk, jlookup_append_single, hnone]
            simp [Srv.jlookup, hnone, Option.or]
          · have hk' : ¬ (k₀ = k) := fun hh => hk hh.symm
            have hcons : Srv.jlookup ((k₀, v₀) :: s) k = Srv.jlookup s k := by
              simp only [Srv.jlookup]
              rw [if_neg hk']
            rw [hcons, jlookup_append_single, if_neg hk', Option.or_none]

/-- C6: the authoritative server's `merge_state` — when either side is not
a JSON object the target is replaced wholesale by the patch; when both are
objects, each key of the patch either merges recursively with the existing
value (so nested objects recurse and anything else is replaced, by the
first clause) or is inserted when absent. -/
theorem C6_merge_state :
    (∀ t s : Srv.Json, t.isObj = false ∨ s.isObj = false →
        Srv.Json.merge t s = s) ∧
    (∀ (t s : List (String × Srv.Json)),
        (t.map Prod.fst).Nodup → (s.map Prod.fst).Nodup →
        ∀ k v, Srv.jlookup s k = some v →
          Srv.jlookup (Srv.Json.mergeList t s) k =
            match Srv.jlookup t k with
            | some w => some (Srv.Json.merge w v)
            | none => some v) ∧
    (∀ (t s : List (String × Srv.Json)),
        Srv.Json.merge (Srv.Json.obj t) (Srv.Json.obj s) =
          Srv.Json.obj (Srv.Json.mergeList t s)) := by
  refine ⟨?_, ?_, ?_⟩
  · intro t s h
    cases t <;> cases s <;>
      simp [Srv.Json.merge, Srv.Json.isObj] at h ⊢
  · intro t s ht hs k v hv
    rw [jlookup_mergeList s t ht hs k, hv]
    cases Srv.jlookup t k <;> rfl
  · intro t s
    rfl

/-- Concrete instance of C6: the spec's deep-merge example — nested
objects merge key-wise, a non-object patch value replaces wholesale. -/
theorem C6_merge_state_witness :
    Srv.jlookup
        (Srv.Json.mergeList [("a", Srv.Json.obj [("x", Srv.Json.num 1)])]
          [("a", Srv.Json.obj [("y", Srv.Json.num 2)])]) "a" =
      some (Srv.Json.obj [("x", Srv.Json.num 1), ("y", Srv.Json.num 2)]) ∧
    Srv.Json.merge (Srv.Json.obj [("x", Srv.Json.num 1), ("y", Srv.Json.num 2)])
        (Srv.Json.num 5) = Srv.Json.num 5 := by
  constructor
  · have h := C6_merge_state.2.1 [("a", Srv.Json.obj [("x", Srv.Json.num 1)])]
      [("a", Srv.Json.obj [("y", Srv.Json.num 2)])]
      (by simp) (by simp) "a" (Srv.Json.obj [("y", Srv.Json.num 2)]) rfl
    rw [h]
    rfl
  · exact C6_merge_state.1 _ _ (Or.inr rfl)

theorem runTrackAux (s : List Bool) :
    ∀ t : Nat, t + Mgr.countIncr s < Mgr.USIZE →
      s.foldl Mgr.trackStep t + Mgr.effDecrs t s = t + Mgr.countIncr s := by
  induction s with
  | nil =>
      intro t _
      simp [Mgr.countIncr, Mgr.effDecrs]
  | cons b s ih =>
      intro t h
      cases b
      · have hc : Mgr.countIncr (false :: s) = Mgr.countIncr s := by
          simp [Mgr.countIncr]
        rw [hc] at h
        simp only [List.foldl_cons, Mgr.effDecrs]
        by_cases ht : 0 < t
        · have hstep : Mgr.trackStep t false = t - 1 := by
            simp [Mgr.trackStep, ht]
          rw [hstep, if_pos ht, hc]
          have := ih (t - 1) (by omega)
          omega
        · have ht0 : t = 0 := by omega
          subst ht0
          have hstep : Mgr.trackStep 0 false = 0 := by
            simp [Mgr.trackStep]
          rw [hstep, hc, if_neg (Nat.lt_irrefl 0)]
          exact ih 0 h
      · have hc : Mgr.countIncr (true :: s) = Mgr.countIncr s + 1 := by
          simp [Mgr.countIncr]
        rw [hc] at h
        have hstep : Mgr.trackStep t true = t + 1 := by
          simp only [Mgr.trackStep, if_pos rfl]
          exact Nat.mod_eq_of_lt (by omega)
        simp only [List.foldl_cons, Mgr.effDecrs, hstep, hc]
        have := ih (t + 1) (by omega)
        omega

/-- C10: the tracker reference count of `AerodromeManager::track` never
underflows — a decrement at zero is a no-op — and after any call sequence
whose increments fit the `usize` counter, the count equals the number of
increments minus the number of decrements that found a positive count. -/
theorem C10_trackers_refcount (s : List Bool)
    (h : Mgr.countIncr s < Mgr.USIZE) :
    Mgr.trackStep 0 false = 0 ∧
    Mgr.runTrack s + Mgr.effDecrs 0 s = Mgr.countIncr s ∧
    Mgr.runTrack s = Mgr.countIncr s - Mgr.effDecrs 0 s := by
  have key := runTrackAux s 0 (by simpa using h)
  simp only [Mgr.runTrack]
  refine ⟨by decide, by simpa using key, ?_⟩
  simp only [Nat.zero_add] at key
  omega

/-- Concrete instance of C10 on a six-call sequence with an attempted
decrement at zero. -/
theorem C10_trackers_refcount_witness :
    Mgr.trackStep 0 false = 0 ∧
    Mgr.runTrack [true, true, false, false, false, true] =
      Mgr.countIncr [true, true, false, false, false, true] -
        Mgr.effDecrs 0 [true, true, false, false, false, true] :=
  ⟨(C10_trackers_refcount [true, true, false, false, false, true]
      (by decide)).1,
    (C10_trackers_refcount [true, true, false, false, false, true]
      (by decide)).2.2⟩

theorem decNat_enc (n : Nat) (rest : List Nat) :
    Codec.decNat (Codec.encNat n ++ rest) = some (n, rest) := by
  induction n with
  | zero => rfl
  | succ n ih =>
      show Codec.decNat ((List.replicate (n + 1) 1 ++ [0]) ++ rest) = _
      rw [List.replicate_succ, List.cons_append, List.cons_append,
        Codec.decNat]
      have : List.replicate n 1 ++ [0] ++ rest =
          Codec.encNat n ++ rest := rfl
      rw [this, ih]
      rfl

theorem decBool_enc (b : Bool) (rest : List Nat) :
    Codec.decBool (Codec.encBool b ++ rest) = some (b, rest) := by
  cases b <;> rfl

theorem decOpt_enc {α : Type} (f : α → List Nat)
    (d : List Nat → Option (α × List Nat))
    (hrt : ∀ x rest, d (f x ++ rest) = some (x, rest)) :
    ∀ (o : Option α) (rest : List Nat),
      Codec.decOpt d (Codec.encOpt f o ++ rest) = some (o, rest) := by
  intro o rest
  cases o with
  | none => rfl
  | some x =>
      show Codec.decOpt d (1 :: (f x ++ rest)) = _
      rw [Codec.decOpt, hrt]
      rfl

theorem decPair_enc {α β : Type} (f : α → List Nat) (g : β → List Nat)
    (d : List Nat → Option (α × List Nat))
    (e : List Nat → Option (β × List Nat))
    (hd : ∀ x rest, d (f x ++ rest) = some (x, rest))
    (he : ∀ x rest, e (g x ++ rest) = some (x, rest)) :
    ∀ (p : α × β) (rest : List Nat),
      Codec.decPair d e (Codec.encPair f g p ++ rest) = some (p, rest) := by
  intro p rest
  show Codec.decPair d e ((f p.1 ++ g p.2) ++ rest) = _
  rw [Codec.decPair, List.append_assoc, hd]
  simp [he]

theorem decListAux_enc {α : Type} (f : α → List Nat)
    (d : List Nat → Option (α × List Nat))
    (hrt : ∀ x rest, d (f x ++ rest) = some (x, rest)) :
    ∀ (xs : List α) (rest : List Nat),
      Codec.decListAux d xs.length ((xs.map f).flatten ++ rest) =
        some (xs, rest) := by
  intro xs
  induction xs with
  | nil => intro rest; rfl
  | cons x xs ih =>
      intro rest
      show Codec.decListAux d (xs.length + 1)
        ((f x :: xs.map f).flatten ++ rest) = _
      rw [List.flatten_cons, List.append_assoc, Codec.decListAux, hrt]
      simp [ih]

theorem decList_enc {α : Type} (f : α → List Nat)
    (d : List Nat → Option (α × List Nat))
    (hrt : ∀ x rest, d (f x ++ rest) = some (x, rest)) :
    ∀ (xs : List α) (rest : List Nat),
      Codec.decList d (Codec.encList f xs ++ rest) = some (xs, rest) := by
  intro xs rest
  show Codec.decList d ((Codec.encNat xs.length ++ (xs.map f).flatten) ++ rest) = _
  rw [Codec.decList, List.append_assoc, decNat_enc]
  simp [decListAux_enc f d hrt]

theorem decChar_enc (c : Char) (rest : List Nat) :
    Codec.decChar (Codec.encChar c ++ rest) = some (c, rest) := by
  rw [Codec.decChar, Codec.encChar, decNat_enc]
  simp [Char.ofNat_toNat]

theorem decString_enc (s : String) (rest : List Nat) :
    Codec.decString (Codec.encString s ++ rest) = some (s, rest) := by
  rw [Codec.decString, Codec.encString, decList_enc Codec.encChar
    Codec.decChar decChar_enc]
  rfl

theorem decPoint_enc (p : Cfg.Point) (rest : List Nat) :
    Codec.decPoint (Codec.encPoint p ++ rest) = some (p, rest) := by
  show Codec.decPoint ((Codec.encNat p.x ++ Codec.encNat p.y) ++ rest) = _
  rw [Codec.decPoint, List.append_assoc, decNat_enc]
  simp [decNat_enc]

theorem decGeo_enc (g : Cfg.Geo) (rest : List Nat) :
    Codec.decGeo (Codec.encGeo g ++ rest) = some (g, rest) := by
  show Codec.decGeo ((Codec.encNat g.lat ++ Codec.encNat g.lon) ++ rest) = _
  rw [Codec.decGeo, List.append_assoc, decNat_enc]
  simp [decNat_enc]

theorem decGeoPoint_enc (g : Cfg.GeoPoint) (rest : List Nat) :
    Codec.decGeoPoint (Codec.encGeoPoint g ++ rest) = some (g, rest) := by
  show Codec.decGeoPoint ((Codec.encGeo g.geo ++ Codec.encPoint g.offset) ++ rest) = _
  rw [Codec.decGeoPoint, List.append_assoc, decGeo_enc]
  simp [decPoint_enc]

theorem decColor_enc (c : Cfg.Color) (rest : List Nat) :
    Codec.decColor (Codec.encColor c ++ rest) = some (c, rest) := by
  show Codec.decColor ((Codec.encNat c.r ++ Codec.encNat c.g ++
    Codec.encNat c.b ++ Codec.encNat c.a) ++ rest) = _
  rw [Codec.decColor, List.append_assoc, List.append_assoc,
    List.append_assoc, decNat_enc]
  simp [decNat_enc]

theorem decFillStyle_enc (f : Cfg.FillStyle) (rest : List Nat) :
    Codec.decFillStyle (Codec.encFillStyle f ++ rest) = some (f, rest) := by
  cases f <;> rfl

theorem decStyle_enc (s : Cfg.Style) (rest : List Nat) :
    Codec.decStyle (Codec.encStyle s ++ rest) = some (s, rest) := by
  show Codec.decStyle ((Codec.encNat s.stroke_width ++
      Codec.encColor s.stroke_color ++ Codec.encFillStyle s.fill_style ++
      Codec.encColor s.fill_color) ++ rest) = _
  rw [Codec.decStyle, List.append_assoc, List.append_assoc,
    List.append_assoc, decNat_enc]
  simp [decColor_enc, decFillStyle_enc]

theorem decCPath_enc {T : Type} (f : T → List Nat)
    (d : List Nat → Option (T × List Nat))
    (hrt : ∀ x rest, d (f x ++ rest) = some (x, rest)) :
    ∀ (p : Cfg.CPath T) (rest : List Nat),
      Codec.decCPath d (Codec.encCPath f p ++ rest) = some (p, rest) := by
  intro p rest
  show Codec.decCPath d ((Codec.encList f p.points ++ Codec.encNat p.style)
    ++ rest) = _
  rw [Codec.decCPath, List.append_assoc, decList_enc f d hrt]
  simp [decNat_enc]

theorem decTarget_enc {T : Type} (f : T → List Nat)
    (d : List Nat → Option (T × List Nat))
    (hrt : ∀ x rest, d (f x ++ rest) = some (x, rest)) :
    ∀ (t : Cfg.Target T) (rest : List Nat),
      Codec.decTarget d (Codec.encTarget f t ++ rest) = some (t, rest) := by
  intro t rest
  rw [Codec.decTarget, Codec.encTarget, decList_enc f d hrt]
  rfl

theorem decNodeDisplay_enc {T : Type} (f : T → List Nat)
    (d : List Nat → Option (T × List Nat))
    (hrt : ∀ x rest, d (f x ++ rest) = some (x, rest)) :
    ∀ (n : Cfg.NodeDisplay T) (rest : List Nat),
      Codec.decNodeDisplay d (Codec.encNodeDisplay f n ++ rest) =
        some (n, rest) := by
  intro n rest
  show Codec.decNodeDisplay d ((Codec.encList (Codec.encCPath f) n.off ++
      Codec.encList (Codec.encCPath f) n.on ++
      Codec.encList (Codec.encCPath f) n.selected ++
      Codec.encTarget f n.target) ++ rest) = _
  rw [Codec.decNodeDisplay, List.append_assoc, List.append_assoc,
    List.append_assoc,
    decList_enc (Codec.encCPath f) (Codec.decCPath d) (decCPath_enc f d hrt)]
  simp [decList_enc (Codec.encCPath f) (Codec.decCPath d) (decCPath_enc f d hrt),
    decTarget_enc f d hrt]

theorem decEdgeDisplay_enc {T : Type} (f : T → List Nat)
    (d : List Nat → Option (T × List Nat))
    (hrt : ∀ x rest, d (f x ++ rest) = some (x, rest)) :
    ∀ (n : Cfg.EdgeDisplay T) (rest : List Nat),
      Codec.decEdgeDisplay d (Codec.encEdgeDisplay f n ++ rest) =
        some (n, rest) := by
  intro n rest
  show Codec.decEdgeDisplay d ((Codec.encList (Codec.encCPath f) n.off ++
      Codec.encList (Codec.encCPath f) n.on) ++ rest) = _
  rw [Codec.decEdgeDisplay, List.append_assoc,
    decList_enc (Codec.encCPath f) (Codec.decCPath d) (decCPath_enc f d hrt)]
  simp [decList_enc (Codec.encCPath f) (Codec.decCPath d) (decCPath_enc f d hrt)]

theorem decBlockDisplay_enc {T : Type} (f : T → List Nat)
    (d : List Nat → Option (T × List Nat))
    (hrt : ∀ x rest, d (f x ++ rest) = some (x, rest)) :
    ∀ (n : Cfg.BlockDisplay T) (rest : List Nat),
      Codec.decBlockDisplay d (Codec.encBlockDisplay f n ++ rest) =
        some (n, rest) := by
  intro n rest
  rw [Codec.decBlockDisplay, Codec.encBlockDisplay, decTarget_enc f d hrt]
  rfl

theorem decElementCondition_enc (c : Cfg.ElementCondition) (rest : List Nat) :
    Codec.decElementCondition (Codec.encElementCondition c ++ rest) =
      some (c, rest) := by
  cases c <;>
    simp [Codec.encElementCondition, Codec.decElementCondition,
      decBool_enc, decNat_enc]

theorem decElement_enc (e : Cfg.Element) (rest : List Nat) :
    Codec.decElement (Codec.encElement e ++ rest) = some (e, rest) := by
  simp [Codec.encElement, Codec.decElement, List.append_assoc,
    decString_enc, decElementCondition_enc]

theorem decNode_enc (n : Cfg.Node) (rest : List Nat) :
    Codec.decNode (Codec.encNode n ++ rest) = some (n, rest) := by
  simp [Codec.encNode, Codec.decNode, List.append_assoc, decString_enc,
    decOpt_enc Codec.encString Codec.decString decString_enc,
    decOpt_enc Codec.encNat Codec.decNat decNat_enc,
    decNodeDisplay_enc Codec.encGeoPoint Codec.decGeoPoint decGeoPoint_enc]

theorem decEdge_enc (e : Cfg.Edge) (rest : List Nat) :
    Codec.decEdge (Codec.encEdge e ++ rest) = some (e, rest) := by
  simp [Codec.encEdge, Codec.decEdge,
    decEdgeDisplay_enc Codec.encGeoPoint Codec.decGeoPoint decGeoPoint_enc]

theorem decBlock_enc (b : Cfg.Block) (rest : List Nat) :
    Codec.decBlock (Codec.encBlock b ++ rest) = some (b, rest) := by
  simp [Codec.encBlock, Codec.decBlock, List.append_assoc, decString_enc,
    decList_enc Codec.encNat Codec.decNat decNat_enc,
    decList_enc (Codec.encPair Codec.encNat Codec.encNat)
      (Codec.decPair Codec.decNat Codec.decNat)
      (decPair_enc Codec.encNat Codec.encNat Codec.decNat Codec.decNat
        decNat_enc decNat_enc),
    decList_enc Codec.encString Codec.decString decString_enc,
    decBlockDisplay_enc Codec.encGeoPoint Codec.decGeoPoint decGeoPoint_enc]

theorem decResetCondition_enc (r : Cfg.ResetCondition) (rest : List Nat) :
    Codec.decResetCondition (Codec.encResetCondition r ++ rest) =
      some (r, rest) := by
  cases r <;>
    simp [Codec.encResetCondition, Codec.decResetCondition, decNat_enc]

theorem decNodeCondition_enc (c : Cfg.NodeCondition) (rest : List Nat) :
    Codec.decNodeCondition (Codec.encNodeCondition c ++ rest) =
      some (c, rest) := by
  cases c <;>
    simp [Codec.encNodeCondition, Codec.decNodeCondition, decBool_enc,
      decResetCondition_enc]

theorem decEdgeCondition_enc (c : Cfg.EdgeCondition) (rest : List Nat) :
    Codec.decEdgeCondition (Codec.encEdgeCondition c ++ rest) =
      some (c, rest) := by
  cases c <;>
    simp [Codec.encEdgeCondition, Codec.decEdgeCondition, decBool_enc,
      decNat_enc, List.append_assoc,
      decList_enc (Codec.encPair Codec.encNat Codec.encNat)
        (Codec.decPair Codec.decNat Codec.decNat)
        (decPair_enc Codec.encNat Codec.encNat Codec.decNat Codec.decNat
          decNat_enc decNat_enc)]

theorem decBlockCondition_enc (b : Cfg.BlockCondition) (rest : List Nat) :
    Codec.decBlockCondition (Codec.encBlockCondition b ++ rest) =
      some (b, rest) := by
  simp [Codec.encBlockCondition, Codec.decBlockCondition,
    decResetCondition_enc]

theorem decBlockState_enc (s : Cfg.BlockState) (rest : List Nat) :
    Codec.decBlockState (Codec.encBlockState s ++ rest) = some (s, rest) := by
  cases s <;>
    simp [Codec.encBlockState, Codec.decBlockState,
      decPair_enc Codec.encNat Codec.encNat Codec.decNat Codec.decNat
        decNat_enc decNat_enc]

theorem decPreset_enc (p : Cfg.Preset) (rest : List Nat) :
    Codec.decPreset (Codec.encPreset p ++ rest) = some (p, rest) := by
  simp [Codec.encPreset, Codec.decPreset, List.append_assoc, decString_enc,
    decList_enc (Codec.encPair Codec.encNat Codec.encBool)
      (Codec.decPair Codec.decNat Codec.decBool)
      (decPair_enc Codec.encNat Codec.encBool Codec.decNat Codec.decBool
        decNat_enc decBool_enc),
    decList_enc (Codec.encPair Codec.encNat Codec.encBlockState)
      (Codec.decPair Codec.decNat Codec.decBlockState)
      (decPair_enc Codec.encNat Codec.encBlockState Codec.decNat
        Codec.decBlockState decNat_enc decBlockState_enc)]

theorem decProfile_enc (p : Cfg.Profile) (rest : List Nat) :
    Codec.decProfile (Codec.encProfile p ++ rest) = some (p, rest) := by
  simp [Codec.encProfile, Codec.decProfile, List.append_assoc, decString_enc,
    decList_enc Codec.encNodeCondition Codec.decNodeCondition
      decNodeCondition_enc,
    decList_enc Codec.encEdgeCondition Codec.decEdgeCondition
      decEdgeCondition_enc,
    decList_enc Codec.encBlockCondition Codec.decBlockCondition
      decBlockCondition_enc,
    decList_enc Codec.encPreset Codec.decPreset decPreset_enc]

theorem decCMap_enc (m : Cfg.CMap) (rest : List Nat) :
    Codec.decCMap (Codec.encCMap m ++ rest) = some (m, rest) := by
  simp [Codec.encCMap, Codec.decCMap, List.append_assoc, decColor_enc,
    decList_enc (Codec.encCPath Codec.encPoint)
      (Codec.decCPath Codec.decPoint)
      (decCPath_enc Codec.encPoint Codec.decPoint decPoint_enc),
    decList_enc (Codec.encNodeDisplay Codec.encPoint)
      (Codec.decNodeDisplay Codec.decPoint)
      (decNodeDisplay_enc Codec.encPoint Codec.decPoint decPoint_enc),
    decList_enc (Codec.encEdgeDisplay Codec.encPoint)
      (Codec.decEdgeDisplay Codec.decPoint)
      (decEdgeDisplay_enc Codec.encPoint Codec.decPoint decPoint_enc),
    decList_enc (Codec.encBlockDisplay Codec.encPoint)
      (Codec.decBlockDisplay Codec.decPoint)
      (decBlockDisplay_enc Codec.encPoint Codec.decPoint decPoint_enc)]

theorem decCBox_enc (b : Cfg.CBox) (rest : List Nat) :
    Codec.decCBox (Codec.encCBox b ++ rest) = some (b, rest) := by
  simp [Codec.encCBox, Codec.decCBox, List.append_assoc, decPoint_enc]

theorem decView_enc (v : Cfg.View) (rest : List Nat) :
    Codec.decView (Codec.encView v ++ rest) = some (v, rest) := by
  simp [Codec.encView, Codec.decView, List.append_assoc, decString_enc,
    decNat_enc, decCBox_enc]

theorem decAerodrome_enc (a : Cfg.Aerodrome) (rest : List Nat) :
    Codec.decAerodrome (Codec.encAerodrome a ++ rest) = some (a, rest) := by
  simp [Codec.encAerodrome, Codec.decAerodrome, List.append_assoc,
    decString_enc,
    decList_enc Codec.encElement Codec.decElement decElement_enc,
    decList_enc Codec.encNode Codec.decNode decNode_enc,
    decList_enc Codec.encEdge Codec.decEdge decEdge_enc,
    decList_enc Codec.encBlock Codec.decBlock decBlock_enc,
    decList_enc Codec.encProfile Codec.decProfile decProfile_enc,
    decList_enc Codec.encCMap Codec.decCMap decCMap_enc,
    decList_enc Codec.encView Codec.decView decView_enc,
    decList_enc Codec.encStyle Codec.decStyle decStyle_enc]

theorem decConfig_enc (c : Cfg.Config) (rest : List Nat) :
    Codec.decConfig (Codec.encConfig c ++ rest) = some (c, rest) := by
  simp [Codec.encConfig, Codec.decConfig, List.append_assoc,
    decOpt_enc Codec.encString Codec.decString decString_enc,
    decList_enc Codec.encAerodrome Codec.decAerodrome decAerodrome_enc]

/-- C7: `Config::load` run on the bytes of `Config::save(c)` succeeds and
returns `c`; and `load` fails with an error — producing no partial result —
on any input whose first 8 bytes are not the magic
`FF 42 41 52 53 13 65 75` or whose following big-endian `u16` is not
version 0. -/
theorem C7_config_codec :
    (∀ c : Cfg.Config, Codec.loadConfig (Codec.saveConfig c) = Except.ok c) ∧
    (∀ b : List Nat,
        b.take 8 ≠ Codec.MAGIC ∨ (b.drop 8).take 2 ≠ Codec.VERSION_BYTES →
        ∃ e, Codec.loadConfig b = Except.error e) := by
  constructor
  · intro c
    have hb : Codec.saveConfig c =
        Codec.MAGIC ++ (Codec.VERSION_BYTES ++ Codec.encConfig c) := by
      rw [Codec.saveConfig, List.append_assoc]
    have htake : (Codec.saveConfig c).take 8 = Codec.MAGIC := by
      rw [hb]
      exact List.take_left' rfl
    have hdrop : (Codec.saveConfig c).drop 8 =
        Codec.VERSION_BYTES ++ Codec.encConfig c := by
      rw [hb]
      exact List.drop_left' rfl
    have hver : ((Codec.saveConfig c).drop 8).take 2 = Codec.VERSION_BYTES := by
      rw [hdrop]
      exact List.take_left' rfl
    have hbody : (Codec.saveConfig c).drop 10 = Codec.encConfig c := by
      rw [Codec.saveConfig]
      exact List.drop_left' rfl
    rw [Codec.loadConfig, if_neg (by rw [htake]; exact fun h => h rfl),
      if_neg (by rw [hver]; exact fun h => h rfl), hbody]
    have := decConfig_enc c []
    rw [List.append_nil] at this
    rw [this]
  · intro b h
    rw [Codec.loadConfig]
    by_cases h1 : b.take 8 = Codec.MAGIC
    · have h2 : (b.drop 8).take 2 ≠ Codec.VERSION_BYTES := by
        rcases h with h | h
        · exact absurd h1 h
        · exact h
      rw [if_neg (fun hh => hh h1), if_pos h2]
      exact ⟨_, rfl⟩
    · rw [if_pos (fun hh => h1 hh)]
      exact ⟨_, rfl⟩

/-- Concrete instance of C7: a one-aerodrome config round-trips, and a
stream with valid magic but wrong version is rejected. -/
theorem C7_config_codec_witness :
    Codec.loadConfig (Codec.saveConfig
        { name := some "pkg", version := none, aerodromes := [Ex.exCfg] }) =
      Except.ok
        { name := some "pkg", version := none, aerodromes := [Ex.exCfg] } ∧
    ∃ e, Codec.loadConfig
        [255, 66, 65, 82, 83, 19, 101, 117, 0, 7] = Except.error e :=
  ⟨C7_config_codec.1 _,
    C7_config_codec.2 [255, 66, 65, 82, 83, 19, 101, 117, 0, 7]
      (Or.inr (by decide))⟩

end Bars
